import Mathlib

/-!
Verification development for the cipher-synchronization core of
bitwarden_rs (src/api/core/ciphers.rs).

The Rust source is shallowly embedded: serde_json values become the
inductive `JVal` (objects are key-sorted association lists, mirroring
the BTreeMap representation used by serde_json without the
preserve-order feature), the database connection becomes an explicit
`DB` record threaded through every operation, fallible handlers return
`Except ApiErr`, and Rust panics (unwrap, expect, out-of-bounds vector
indexing) become the distinct error constructor `ApiErr.panic` so that
a structured `err!` response is never confused with a crash.
-/

/-- JSON values as used through serde_json in the source. Objects are
association lists kept in increasing key order, matching the
BTreeMap-backed map of serde_json. -/
inductive JVal where
  | null : JVal
  | bool : Bool → JVal
  | num : Int → JVal
  | str : String → JVal
  | arr : List JVal → JVal
  | obj : List (String × JVal) → JVal

/-- Insertion into a key-sorted association list, as assignment through
serde_json `Value` indexing behaves on an object map: an equal key is
replaced in place, a new key is placed at its sorted position. -/
def objInsert (k : String) (v : JVal) : List (String × JVal) → List (String × JVal)
  | [] => [(k, v)]
  | p :: rest =>
    if k = p.1 then (k, v) :: rest
    else if k < p.1 then (k, v) :: p :: rest
    else p :: objInsert k v rest

/-- Lookup in an association list representing a JSON object map. -/
def objLookup (k : String) : List (String × JVal) → Option JVal
  | [] => none
  | p :: rest => if p.1 = k then some p.2 else objLookup k rest

/-- The key list of a JSON object map. -/
def objKeys (l : List (String × JVal)) : List String :=
  l.map Prod.fst

/-- Index assignment on a serde_json `Value`. In the source it is only
ever applied to values that are objects, so non-object values are left
unchanged here. -/
def jsonSet (v : JVal) (k : String) (x : JVal) : JVal :=
  match v with
  | .obj kvs => .obj (objInsert k x kvs)
  | other => other

/-- Modelled from the spec: util::upcase_first is not under src/. Spec
4.1 and the glossary describe canonical casing as upper-casing the first
character of a key, all remaining characters kept unchanged. -/
def upcase_first (s : String) : String :=
  match s.data with
  | [] => ""
  | c :: rest => String.mk (c.toUpper :: rest)

/-- src ciphers.rs lines 188-199: copy every entry of `fromv` (when it
is an object) into `tov`, upper-casing the first character of each key;
returns false when `fromv` is not an object. -/
def copy_values (fromv : JVal) (tov : JVal) : Bool × JVal :=
  match fromv with
  | .obj kvs => (true, kvs.foldl (fun acc p => jsonSet acc (upcase_first p.1) p.2) tov)
  | _ => (false, tov)

/-- The association-list form of the fold performed by `copy_values`
when both sides are objects. -/
def copyFold (kvs l : List (String × JVal)) : List (String × JVal) :=
  kvs.foldl (fun acc p => objInsert (upcase_first p.1) p.2 acc) l

/-- Lower-case hex digit of a nibble. -/
def hexNibble (n : Nat) : Char :=
  if n < 10 then Char.ofNat (48 + n) else Char.ofNat (87 + n)

/-- One character of a JSON string literal, escaped the way serde_json
escapes it. -/
def escChar (c : Char) : String :=
  if c = '"' then "\\\""
  else if c = '\\' then "\\\\"
  else if c.toNat = 8 then "\\b"
  else if c.toNat = 9 then "\\t"
  else if c.toNat = 10 then "\\n"
  else if c.toNat = 12 then "\\f"
  else if c.toNat = 13 then "\\r"
  else if c.toNat < 32 then "\\u00" ++ String.mk [hexNibble (c.toNat / 16), hexNibble (c.toNat % 16)]
  else String.singleton c

/-- A JSON string literal, quotes included. -/
def strLit (s : String) : String :=
  "\"" ++ String.join (s.data.map escChar) ++ "\""

/-- Decimal rendering of an integer, as serde_json prints numbers. -/
def intStr (n : Int) : String :=
  toString n

mutual

/-- Compact serde_json serialization of a value, as produced by
`Value::to_string` and `serde_json::to_string`. -/
def JVal.toString : JVal → String
  | .null => "null"
  | .bool b => cond b "true" "false"
  | .num n => intStr n
  | .str s => strLit s
  | .arr xs => "[" ++ jarrStr xs ++ "]"
  | .obj kvs => "\x7b" ++ jobjStr kvs ++ "\x7d"

/-- Comma-separated serialization of a JSON array body. -/
def jarrStr : List JVal → String
  | [] => ""
  | [x] => JVal.toString x
  | x :: y :: xs => JVal.toString x ++ "," ++ jarrStr (y :: xs)

/-- Comma-separated serialization of a JSON object body. -/
def jobjStr : List (String × JVal) → String
  | [] => ""
  | [p] => strLit p.1 ++ ":" ++ JVal.toString p.2
  | p :: q :: kvs => strLit p.1 ++ ":" ++ JVal.toString p.2 ++ "," ++ jobjStr (q :: kvs)

end

/-- Lower-hex encoding of a byte list, as data_encoding::HEXLOWER
encodes the random attachment name. -/
def hexLower (bs : List Nat) : String :=
  String.mk (bs.foldr (fun b acc => hexNibble (b / 16 % 16) :: hexNibble (b % 16) :: acc) [])

/-- The wrapping `as i32` cast applied to the saved file size (a u64)
in the attachment handler. -/
def i32_of_u64 (n : Nat) : Int :=
  let m : Nat := n % 2 ^ 32
  if m < 2 ^ 31 then (m : Int) else (m : Int) - 2 ^ 32

/-- The authenticated user, as consumed from the excluded
authentication collaborator. -/
structure User where
  uuid : String
  password_hash : String
deriving DecidableEq

/-- Modelled from the spec: db/models user code is not under src/. Spec
section 6 describes a boolean freshness check for a supplied credential,
used only by the purge operation. -/
def User.check_valid_password (user : User) (password : String) : Bool :=
  password == user.password_hash

/-- The request context from the excluded authentication layer. -/
structure Headers where
  host : String
  user : User
deriving DecidableEq

/-- A folder row. -/
structure Folder where
  uuid : String
  user_uuid : String
  name : String
deriving DecidableEq

/-- A cipher row, with the fields read and written by ciphers.rs. -/
structure Cipher where
  uuid : String
  user_uuid : String
  folder_uuid : Option String
  organization_uuid : Option String
  type_ : Int
  name : String
  notes : Option String
  fields : Option String
  data : String
  favorite : Bool
deriving DecidableEq

/-- An attachment row: `id` is the generated storage file name,
`file_name` the client-declared display name. -/
structure Attachment where
  id : String
  cipher_uuid : String
  file_name : String
  size : Int
deriving DecidableEq

/-- The relational store behind DbConn, as three keyed tables. -/
structure DB where
  ciphers : List Cipher
  folders : List Folder
  attachments : List Attachment
deriving DecidableEq

/-- Modelled from the spec: db/models folder code is not under src/.
Section 3 — a Folder is identity, owning-user id and name, created
standalone or during import. -/
def Folder.new (uuid user_uuid name : String) : Folder :=
  { uuid := uuid, user_uuid := user_uuid, name := name }

/-- Modelled from the spec: section 4.3 find-by-id over folders. -/
def Folder.find_by_uuid (uuid : String) (conn : DB) : Option Folder :=
  conn.folders.find? (fun f => f.uuid == uuid)

/-- Modelled from the spec: section 4.3 find-all-by-owning-user over
folders. -/
def Folder.find_by_user (user_uuid : String) (conn : DB) : List Folder :=
  conn.folders.filter (fun f => f.user_uuid == user_uuid)

/-- Modelled from the spec: section 4.3 create / persist full-row
update, a keyed upsert on the folder table. -/
def Folder.save (f : Folder) (conn : DB) : DB :=
  if conn.folders.any (fun x => x.uuid == f.uuid) then
    { conn with folders := conn.folders.map (fun x => if x.uuid == f.uuid then f else x) }
  else
    { conn with folders := conn.folders ++ [f] }

/-- Modelled from the spec: section 4.3 delete-by-id over folders. -/
def Folder.delete (f : Folder) (conn : DB) : DB :=
  { conn with folders := conn.folders.filter (fun x => x.uuid != f.uuid) }

/-- Modelled from the spec: db/models cipher code is not under src/.
Section 3 — a cipher is created on cipher-create/import with the
required fields populated and every optional reference empty. -/
def Cipher.new (uuid user_uuid : String) (type_ : Int) (name : String) (favorite : Bool) : Cipher :=
  { uuid := uuid, user_uuid := user_uuid, folder_uuid := none, organization_uuid := none,
    type_ := type_, name := name, notes := none, fields := none, data := "", favorite := favorite }

/-- Modelled from the spec: section 4.3 find-by-id over ciphers. -/
def Cipher.find_by_uuid (uuid : String) (conn : DB) : Option Cipher :=
  conn.ciphers.find? (fun c => c.uuid == uuid)

/-- Modelled from the spec: section 4.3 find-all-by-owning-user over
ciphers. -/
def Cipher.find_by_user (user_uuid : String) (conn : DB) : List Cipher :=
  conn.ciphers.filter (fun c => c.user_uuid == user_uuid)

/-- Modelled from the spec: section 4.3 create / persist full-row
update, a keyed upsert on the cipher table. -/
def Cipher.save (c : Cipher) (conn : DB) : DB :=
  if conn.ciphers.any (fun x => x.uuid == c.uuid) then
    { conn with ciphers := conn.ciphers.map (fun x => if x.uuid == c.uuid then c else x) }
  else
    { conn with ciphers := conn.ciphers ++ [c] }

/-- Modelled from the spec: section 4.3 delete-by-id over ciphers. -/
def Cipher.delete (c : Cipher) (conn : DB) : DB :=
  { conn with ciphers := conn.ciphers.filter (fun x => x.uuid != c.uuid) }

/-- Modelled from the spec: db/models attachment code is not under
src/. Section 3 — an attachment row records the generated file name,
the owning cipher, the untrusted display name and the byte size. -/
def Attachment.new (id cipher_uuid file_name : String) (size : Int) : Attachment :=
  { id := id, cipher_uuid := cipher_uuid, file_name := file_name, size := size }

/-- Modelled from the spec: lookup of every attachment owned by one
cipher. -/
def Attachment.find_by_cipher (cipher_uuid : String) (conn : DB) : List Attachment :=
  conn.attachments.filter (fun a => a.cipher_uuid == cipher_uuid)

/-- Modelled from the spec: keyed upsert on the attachment table. -/
def Attachment.save (a : Attachment) (conn : DB) : DB :=
  if conn.attachments.any (fun x => x.id == a.id) then
    { conn with attachments := conn.attachments.map (fun x => if x.id == a.id then a else x) }
  else
    { conn with attachments := conn.attachments ++ [a] }

/-- Modelled from the spec: section 4.4 delete of one attachment row. -/
def Attachment.delete (a : Attachment) (conn : DB) : DB :=
  { conn with attachments := conn.attachments.filter (fun x => x.id != a.id) }

/-- Outcome of a handler: an `err!` bad-request response, or a Rust
panic (unwrap, expect, out-of-bounds indexing). -/
inductive ApiErr where
  | badRequest : String → ApiErr
  | panic : String → ApiErr
deriving DecidableEq

/-- The deserialized cipher write request body (struct CipherData,
src ciphers.rs lines 72-99). -/
structure CipherData where
  folderId : Option String
  organizationId : Option String
  type_ : Int
  name : String
  notes : Option String
  fields : Option JVal
  login : Option JVal
  secureNote : Option JVal
  card : Option JVal
  identity : Option JVal
  favorite : Bool

/-- The typed-payload selection of src lines 165-171: discriminant 1
selects login, 2 secureNote, 3 card, 4 identity, anything else is the
Invalid type error. -/
def typedPayloadChoice (data : CipherData) : Except ApiErr (Option JVal) :=
  if data.type_ = 1 then .ok data.login
  else if data.type_ = 2 then .ok data.secureNote
  else if data.type_ = 3 then .ok data.card
  else if data.type_ = 4 then .ok data.identity
  else .error (.badRequest "Invalid type")

/-- The backwards-compat envelope of src lines 137-154: an object with
Name and Notes, and Fields either the normalized custom-field array or
an explicit null. A fields value that is present but not an array hits
`as_array().unwrap()` and panics. -/
def buildValues (data : CipherData) : Except ApiErr JVal :=
  let base := objInsert "Notes" (match data.notes with | some s => JVal.str s | none => JVal.null)
    (objInsert "Name" (JVal.str data.name) [])
  match data.fields with
  | some (JVal.arr fs) =>
    .ok (.obj (objInsert "Fields" (.arr (fs.map (fun f => (copy_values f (.obj [])).2))) base))
  | some _ => .error (.panic "called Option.unwrap on a None value")
  | none => .ok (.obj (objInsert "Fields" JVal.null base))

/-- The unconditional organization passthrough of src lines 129-132. -/
def applyOrg (cipher : Cipher) (data : CipherData) : Cipher :=
  match data.organizationId with
  | some org => { cipher with organization_uuid := some org }
  | none => cipher

/-- The conditional notes write of src lines 156-158: only a present
notes value is written, an absent one leaves the column alone. -/
def applyNotes (cipher : Cipher) (data : CipherData) : Cipher :=
  if data.notes.isSome then { cipher with notes := data.notes } else cipher

/-- The conditional fields write of src lines 160-163. -/
def applyFields (cipher : Cipher) (data : CipherData) : Cipher :=
  match data.fields with
  | some fields => { cipher with fields := some (JVal.toString fields) }
  | none => cipher

/-- The tail of update_cipher_from_data after the folder step (src
lines 129-185): organization passthrough, envelope construction, the
conditional notes and fields writes, typed-payload selection, key
normalization, and serialization into the data column. The partially
mutated cipher accompanies every early error, mirroring the mutable
borrow. -/
def updateAfterFolder (cipher : Cipher) (data : CipherData) : Except ApiErr Unit × Cipher :=
  match buildValues data with
  | .error e => (.error e, applyOrg cipher data)
  | .ok values =>
    match typedPayloadChoice data with
    | .error e => (.error e, applyFields (applyNotes (applyOrg cipher data) data) data)
    | .ok none =>
      (.error (.badRequest "Data missing"), applyFields (applyNotes (applyOrg cipher data) data) data)
    | .ok (some type_data) =>
      match copy_values type_data values with
      | (true, merged) =>
        (.ok (),
          { applyFields (applyNotes (applyOrg cipher data) data) data with
              data := JVal.toString merged })
      | (false, _) =>
        (.error (.badRequest "Data invalid"),
          applyFields (applyNotes (applyOrg cipher data) data) data)

/-- update_cipher_from_data (src lines 115-186). The folder check runs
first: a supplied folder id must resolve and must belong to the
authenticated user before anything on the cipher is touched. The pair
returns the in-memory cipher alongside the outcome, mirroring the
in-place mutation through the mutable borrow. -/
def update_cipher_from_data (cipher : Cipher) (data : CipherData) (headers : Headers)
    (conn : DB) : Except ApiErr Unit × Cipher :=
  match data.folderId with
  | some folder_id =>
    (match Folder.find_by_uuid folder_id conn with
     | some folder =>
       if folder.user_uuid = headers.user.uuid then
         updateAfterFolder { cipher with folder_uuid := some folder_id } data
       else
         (.error (.badRequest "Folder is not owned by user"), cipher)
     | none => (.error (.badRequest "Folder doesn't exist"), cipher))
  | none => updateAfterFolder cipher data

/-- The serialized payload produced by a successful merge, recomposed
from the same pieces: it depends on the request data alone. -/
def mergedDataString (data : CipherData) : Option String :=
  match buildValues data with
  | .error _ => none
  | .ok values =>
    match typedPayloadChoice data with
    | .ok (some type_data) =>
      match copy_values type_data values with
      | (true, merged) => some (JVal.toString merged)
      | (false, _) => none
    | _ => none

/-- post_ciphers (src lines 101-113): build a fresh cipher from the
request, merge, save. The fresh uuid generated inside Cipher::new is
passed explicitly. -/
def post_ciphers (data : CipherData) (headers : Headers) (conn : DB) (new_uuid : String) :
    Except ApiErr Cipher × DB :=
  let cipher := Cipher.new new_uuid headers.user.uuid data.type_ data.name data.favorite
  match update_cipher_from_data cipher data headers conn with
  | (.error e, _) => (.error e, conn)
  | (.ok _, cipher) => (.ok cipher, Cipher.save cipher conn)

/-- put_cipher (src lines 266-285): fetch, ownership check, favorite
write, merge, save. -/
def put_cipher (uuid : String) (data : CipherData) (headers : Headers) (conn : DB) :
    Except ApiErr Cipher × DB :=
  match Cipher.find_by_uuid uuid conn with
  | none => (.error (.badRequest "Cipher doesn't exist"), conn)
  | some cipher =>
    if cipher.user_uuid = headers.user.uuid then
      let cipher := { cipher with favorite := data.favorite }
      match update_cipher_from_data cipher data headers conn with
      | (.error e, _) => (.error e, conn)
      | (.ok _, cipher) => (.ok cipher, Cipher.save cipher conn)
    else
      (.error (.badRequest "Cipher is not owned by user"), conn)

/-- The folder-creation request entries of an import
(super::folders::FolderData). -/
structure FolderData where
  name : String

/-- One entry of the import relationship list: key is the cipher
position, value the folder position. -/
structure RelationsData where
  key : Nat
  value : Nat

/-- The deserialized import request body. -/
structure ImportData where
  ciphers : List CipherData
  folders : List FolderData
  folderRelationships : List RelationsData

/-- HashMap::insert on a Nat-keyed association list: replace the value
of an existing key, otherwise add the pair. -/
def mapInsert (k v : Nat) : List (Nat × Nat) → List (Nat × Nat)
  | [] => [(k, v)]
  | p :: rest => if p.1 = k then (k, v) :: rest else p :: mapInsert k v rest

/-- HashMap::get on the same representation. -/
def mapGet (k : Nat) : List (Nat × Nat) → Option Nat
  | [] => none
  | p :: rest => if p.1 = k then some p.2 else mapGet k rest

/-- The relations-map construction of src lines 233-238: fold every
relationship into the map, later entries overwriting earlier ones. -/
def buildRelMap (rels : List RelationsData) : List (Nat × Nat) :=
  rels.foldl (fun m r => mapInsert r.key r.value m) []

/-- The claim-side reading of the relationship fold: the value of the
last relationship carrying the key, if any. -/
def lastValue (k : Nat) (rels : List RelationsData) : Option Nat :=
  rels.foldl (fun acc r => if r.key = k then some r.value else acc) none

/-- The folder-creation pass of the import (src lines 226-230): one
Folder per request entry in order, each owned by the caller; the i-th
generated uuid is `su i`. -/
def mkImportFolders (su : Nat → String) (user_uuid : String) :
    List FolderData → Nat → List Folder
  | [], _ => []
  | fd :: rest, i => Folder.new (su i) user_uuid fd.name :: mkImportFolders su user_uuid rest (i + 1)

/-- The cipher loop of the import (src lines 241-256): resolve the
relationship for the current index (an out-of-range folder position is
an out-of-bounds vector index, a panic), build and merge the cipher
(any merge error aborts the whole import with the generic message),
overwrite the folder reference, save, continue. The uuid of the cipher
at loop index `index` is `su (nf + index)` where `nf` folder uuids were
generated first. -/
def impLoop (headers : Headers) (su : Nat → String) (nf : Nat) (folders : List Folder)
    (m : List (Nat × Nat)) : List CipherData → Nat → DB → Except ApiErr Unit × DB
  | [], _, conn => (.ok (), conn)
  | cipher_data :: rest, index, conn =>
    let fu : Except ApiErr (Option String) :=
      match mapGet index m with
      | some i =>
        if h : i < folders.length then .ok (some (folders.get ⟨i, h⟩).uuid)
        else .error (.panic "index out of bounds")
      | none => .ok none
    match fu with
    | .error e => (.error e, conn)
    | .ok folder_uuid =>
      let cipher := Cipher.new (su (nf + index)) headers.user.uuid cipher_data.type_
        cipher_data.name cipher_data.favorite
      match update_cipher_from_data cipher cipher_data headers conn with
      | (.error (.panic msg), _) => (.error (.panic msg), conn)
      | (.error (.badRequest _), _) => (.error (.badRequest "Error creating cipher"), conn)
      | (.ok _, cipher) =>
        impLoop headers su nf folders m rest (index + 1)
          (Cipher.save { cipher with folder_uuid := folder_uuid } conn)

/-- post_ciphers_import (src lines 221-259): create and save every
folder, fold the relationship list into a map, then run the cipher
loop. `su` supplies the generated uuids, folders first. -/
def post_ciphers_import (data : ImportData) (headers : Headers) (conn : DB)
    (su : Nat → String) : Except ApiErr Unit × DB :=
  let folders := mkImportFolders su headers.user.uuid data.folders 0
  let conn := folders.foldl (fun c f => Folder.save f c) conn
  let m := buildRelMap data.folderRelationships
  impLoop headers su data.folders.length folders m data.ciphers 0 conn

/-- post_cipher (src lines 261-264) simply forwards to put_cipher. -/
def post_cipher (uuid : String) (data : CipherData) (headers : Headers) (conn : DB) :
    Except ApiErr Cipher × DB :=
  put_cipher uuid data headers conn

/-- The outcome of the streamed save of one multipart field
(field.data.save() with memory_threshold 0 and no size limit): a fully
saved file of a known size, or anything else. -/
inductive SaveOutcome where
  | fullFile : Nat → SaveOutcome
  | other : SaveOutcome
deriving DecidableEq

/-- One file part of the multipart body: the client-declared filename
header (absent for non-file fields, where the handler unwraps and
panics) and the save outcome of its data. -/
structure UploadPart where
  filename : Option String
  save_outcome : SaveOutcome
deriving DecidableEq

/-- The multipart body as seen through foreach_entry: the entries that
parse, and, when the stream is malformed, the parse error produced
after those entries were already handled. -/
structure MultipartBody where
  parts : List UploadPart
  after_error : Option String
deriving DecidableEq

/-- The foreach_entry closure of post_attachment (src lines 305-322),
one part at a time: unwrap the client filename, generate the random
storage name from the i-th 10-byte draw, and create the attachment row
only when the save came back as a full file, with the size wrapped
through `as i32`; any other save outcome skips the part silently. -/
def attachLoop (cipher : Cipher) (rng : Nat → List Nat) :
    List UploadPart → Nat → DB → Except ApiErr Unit × DB
  | [], _, conn => (.ok (), conn)
  | part :: rest, i, conn =>
    match part.filename with
    | none => (.error (.panic "called Option.unwrap on a None value"), conn)
    | some name =>
      let file_name := hexLower (rng i)
      match part.save_outcome with
      | .fullFile size =>
        attachLoop cipher rng rest (i + 1)
          (Attachment.save (Attachment.new file_name cipher.uuid name (i32_of_u64 size)) conn)
      | .other => attachLoop cipher rng rest (i + 1) conn

/-- post_attachment (src lines 288-325): fetch and ownership-check the
cipher, take the first content-type parameter as the boundary (expect
panics when there is none), run the multipart loop, and panic through
the trailing expect when the stream was malformed. -/
def post_attachment (uuid : String) (body : MultipartBody)
    (ctParams : List (String × String)) (headers : Headers) (conn : DB)
    (rng : Nat → List Nat) : Except ApiErr Cipher × DB :=
  match Cipher.find_by_uuid uuid conn with
  | none => (.error (.badRequest "Cipher doesn't exist"), conn)
  | some cipher =>
    if cipher.user_uuid = headers.user.uuid then
      match ctParams with
      | [] => (.error (.panic "No boundary provided"), conn)
      | _ :: _ =>
        match attachLoop cipher rng body.parts 0 conn with
        | (.error e, conn) => (.error e, conn)
        | (.ok _, conn) =>
          match body.after_error with
          | some _ => (.error (.panic "Error processing multipart data"), conn)
          | none => (.ok cipher, conn)
    else
      (.error (.badRequest "Cipher is not owned by user"), conn)

/-- The purge request body (api::PasswordData). -/
structure PasswordData where
  masterPasswordHash : String

/-- delete_all (src lines 391-413): re-verify the master password hash,
then delete every cipher of the user (each preceded by its
attachments), then every folder. -/
def delete_all (data : PasswordData) (headers : Headers) (conn : DB) :
    Except ApiErr Unit × DB :=
  let user := headers.user
  if !user.check_valid_password data.masterPasswordHash then
    (.error (.badRequest "Invalid password"), conn)
  else
    let conn := (Cipher.find_by_user user.uuid conn).foldl (fun c cipher =>
      Cipher.delete cipher
        ((Attachment.find_by_cipher cipher.uuid c).foldl (fun c2 a => Attachment.delete a c2) c))
      conn
    let conn := (Folder.find_by_user user.uuid conn).foldl (fun c f => Folder.delete f c) conn
    (.ok (), conn)

/-- A request whose custom-fields value, when present, is an array, so
the fields step cannot panic. -/
def FieldsOk (data : CipherData) : Prop :=
  data.fields = none ∨ ∃ fs, data.fields = some (JVal.arr fs)

/-- A write request that the merge accepts independently of the
database: no folder reference, a panic-free fields value, and a typed
payload that is present and is an object. -/
def CipherDataOk (data : CipherData) : Prop :=
  data.folderId = none ∧ FieldsOk data ∧
    ∃ kvs, typedPayloadChoice data = .ok (some (JVal.obj kvs))

/-- A write request that the merge rejects with an err! response
independently of the database: no folder reference, a panic-free fields
value, and no typed payload object for its discriminant. -/
def MergeFails (data : CipherData) : Prop :=
  data.folderId = none ∧ FieldsOk data ∧
    ∀ kvs, typedPayloadChoice data ≠ .ok (some (JVal.obj kvs))

/-- Claim-side recomputation of the attachment rows an upload should
create: one row per fully saved file part, carrying the hex storage
name of the i-th random draw, the owning cipher, the declared display
name and the wrapped size; failed parts contribute nothing. -/
def spec_attachment_rows (cipher_uuid : String) (rng : Nat → List Nat) :
    List UploadPart → Nat → List Attachment
  | [], _ => []
  | part :: rest, i =>
    match part.save_outcome with
    | .fullFile size =>
      Attachment.new (hexLower (rng i)) cipher_uuid (part.filename.getD "") (i32_of_u64 size) ::
        spec_attachment_rows cipher_uuid rng rest (i + 1)
    | .other => spec_attachment_rows cipher_uuid rng rest (i + 1)

/-- A baseline write request used by the concrete scenarios below. -/
def baseData : CipherData :=
  { folderId := none, organizationId := none, type_ := 1, name := "item-name",
    notes := none, fields := none, login := none, secureNote := none,
    card := none, identity := none, favorite := false }

/-- The authenticated user of the concrete scenarios. -/
def user0 : User := { uuid := "u1", password_hash := "hash1" }

/-- A second user, owner of the foreign folder. -/
def userOther : User := { uuid := "u2", password_hash := "hash2" }

/-- Request context of the concrete scenarios. -/
def headers0 : Headers := { host := "example.test", user := user0 }

/-- An empty store. -/
def db0 : DB := { ciphers := [], folders := [], attachments := [] }

/-- A folder owned by the second user. -/
def foreignFolder : Folder := { uuid := "fld-other", user_uuid := "u2", name := "theirs" }

/-- A stored cipher belonging to user u1, with notes already set. -/
def storedCipher : Cipher :=
  { uuid := "c1", user_uuid := "u1", folder_uuid := none, organization_uuid := none,
    type_ := 2, name := "old-name", notes := some "old-notes", fields := none,
    data := "old-data", favorite := true }

/-- Store holding the stored cipher and the foreign folder. -/
def db1 : DB := { ciphers := [storedCipher], folders := [foreignFolder], attachments := [] }

/-- A valid login write with two payload entries. -/
def loginData : CipherData :=
  { baseData with
    login := some (JVal.obj [("password", JVal.str "p"), ("username", JVal.str "alice")]) }

/-- A login write pointing at a folder id that exists nowhere. -/
def loginDataBadFolder : CipherData := { loginData with folderId := some "no-such-folder" }

/-- A login write pointing at the other user's folder. -/
def loginDataForeignFolder : CipherData := { loginData with folderId := some "fld-other" }

/-- A write with an out-of-range type discriminant. -/
def badTypeData : CipherData := { baseData with type_ := 7 }

/-- A write with an out-of-range discriminant and a dangling folder id. -/
def badTypeBadFolderData : CipherData := { badTypeData with folderId := some "no-such-folder" }

/-- A secure-note write with an empty payload object and absent notes. -/
def noteData : CipherData :=
  { baseData with type_ := 2, secureNote := some (JVal.obj []) }

/-- A login write whose login payload is missing (the Data missing case). -/
def missingPayloadData : CipherData := baseData

/-- Uuid supply of the concrete import scenarios: distinct non-empty
strings of repeated characters. -/
def su0 (n : Nat) : String := String.mk (List.replicate (n + 1) 'i')

/-- The import of the concrete folder-relationship scenario: folders
F0 and F1, three secure-note ciphers, relationships mapping cipher 0 to
folder 1 and cipher 2 to folder 0. -/
def importData4 : ImportData :=
  { ciphers := [noteData, noteData, noteData],
    folders := [{ name := "F0" }, { name := "F1" }],
    folderRelationships := [{ key := 0, value := 1 }, { key := 2, value := 0 }] }

/-- An import whose second cipher has no typed payload, so its merge
fails after the first cipher was already persisted. -/
def importData5 : ImportData :=
  { ciphers := [noteData, missingPayloadData, noteData],
    folders := [{ name := "F0" }],
    folderRelationships := [] }

/-- An import carrying a relationship whose folder index 5 is out of
range for its single folder. -/
def importData10 : ImportData :=
  { ciphers := [noteData],
    folders := [{ name := "F0" }],
    folderRelationships := [{ key := 0, value := 5 }] }

/-- A stored cipher without attachments for the upload scenarios. -/
def plainCipher : Cipher :=
  { uuid := "c1", user_uuid := "u1", folder_uuid := none, organization_uuid := none,
    type_ := 1, name := "n", notes := none, fields := none, data := "", favorite := false }

/-- Store holding only the upload target cipher. -/
def db6 : DB := { ciphers := [plainCipher], folders := [], attachments := [] }

/-- Random-byte supply of the upload scenarios: the i-th draw is ten
bytes of value i. -/
def rng0 (i : Nat) : List Nat := List.replicate 10 i

/-- Two file parts: the first save fails, the second saves 5 bytes. -/
def twoPartBody : MultipartBody :=
  { parts := [{ filename := some "a.txt", save_outcome := .other },
              { filename := some "b.txt", save_outcome := .fullFile 5 }],
    after_error := none }

/-- One file part whose save reports 2^31 bytes. -/
def hugePartBody : MultipartBody :=
  { parts := [{ filename := some "big.bin", save_outcome := .fullFile (2 ^ 31) }],
    after_error := none }

/-- A multipart stream that parses no entries and then reports a parse
error. -/
def malformedBody : MultipartBody := { parts := [], after_error := some "malformed" }

/-- An empty multipart body. -/
def emptyBody : MultipartBody := { parts := [], after_error := none }

/-- Content-type parameter list carrying a boundary. -/
def boundaryParams : List (String × String) := [("boundary", "XX")]

/-- Store of the purge scenario: two ciphers of u1 (one with an
attachment), one cipher of u2 with its own attachment, and one folder
per user. -/
def db7 : DB :=
  { ciphers := [{ plainCipher with uuid := "c1" },
                { plainCipher with uuid := "c2" },
                { plainCipher with uuid := "c3", user_uuid := "u2" }],
    folders := [{ uuid := "fl1", user_uuid := "u1", name := "mine" },
                { uuid := "fl2", user_uuid := "u2", name := "theirs" }],
    attachments := [{ id := "a1", cipher_uuid := "c1", file_name := "f1", size := 3 },
                    { id := "a3", cipher_uuid := "c3", file_name := "f3", size := 4 }] }

/-- Store of the notes-retention scenario: the stored cipher with notes
present. -/
def db8 : DB := { ciphers := [storedCipher], folders := [], attachments := [] }

theorem objLookup_objInsert_self (k : String) (v : JVal) (l : List (String × JVal)) :
    objLookup k (objInsert k v l) = some v := by
  induction l with
  | nil => simp [objInsert, objLookup]
  | cons p rest ih =>
    rw [objInsert]
    by_cases h1 : k = p.1
    · rw [if_pos h1]; simp [objLookup]
    · rw [if_neg h1]
      by_cases hlt : k < p.1
      · rw [if_pos hlt]; simp [objLookup]
      · rw [if_neg hlt]; simp [objLookup, Ne.symm h1, ih]

theorem objLookup_objInsert_ne (k q : String) (v : JVal) (l : List (String × JVal))
    (hne : k ≠ q) : objLookup q (objInsert k v l) = objLookup q l := by
  induction l with
  | nil => simp [objInsert, objLookup, hne]
  | cons p rest ih =>
    rw [objInsert]
    by_cases h1 : k = p.1
    · rw [if_pos h1]
      have hp : ¬p.1 = q := h1 ▸ hne
      simp [objLookup, hne, hp]
    · rw [if_neg h1]
      by_cases hlt : k < p.1
      · rw [if_pos hlt]; simp [objLookup, hne]
      · rw [if_neg hlt]; simp [objLookup, ih]

theorem mem_objKeys_objInsert (k q : String) (v : JVal) (l : List (String × JVal)) :
    q ∈ objKeys (objInsert k v l) ↔ q = k ∨ q ∈ objKeys l := by
  induction l with
  | nil => simp [objInsert, objKeys]
  | cons p rest ih =>
    rw [objInsert]
    by_cases h1 : k = p.1
    · rw [if_pos h1]
      subst h1
      dsimp only [objKeys, List.map_cons]
      simp only [List.mem_cons]
      tauto
    · rw [if_neg h1]
      by_cases hlt : k < p.1
      · rw [if_pos hlt]
        dsimp only [objKeys, List.map_cons]
        simp only [List.mem_cons]
        try tauto
      · rw [if_neg hlt]
        dsimp only [objKeys, List.map_cons] at ih ⊢
        simp only [List.mem_cons] at ih ⊢
        rw [ih]
        tauto

theorem copyFold_nil (l : List (String × JVal)) : copyFold [] l = l := rfl

theorem copyFold_cons (p : String × JVal) (kvs l : List (String × JVal)) :
    copyFold (p :: kvs) l = copyFold kvs (objInsert (upcase_first p.1) p.2 l) := rfl

theorem mem_objKeys_copyFold (kvs : List (String × JVal)) :
    ∀ (l : List (String × JVal)) (q : String),
      q ∈ objKeys (copyFold kvs l) ↔ q ∈ objKeys l ∨ ∃ p ∈ kvs, upcase_first p.1 = q := by
  induction kvs with
  | nil => intro l q; simp [copyFold_nil]
  | cons p kvs ih =>
    intro l q
    rw [copyFold_cons, ih, mem_objKeys_objInsert]
    constructor
    · rintro (⟨h | h⟩ | ⟨r, hr, hq⟩)
      · exact Or.inr ⟨p, by simp, h.symm⟩
      · exact Or.inl h
      · exact Or.inr ⟨r, by simp [hr], hq⟩
    · rintro (h | ⟨r, hr, hq⟩)
      · exact Or.inl (Or.inr h)
      · rcases List.mem_cons.mp hr with rfl | hr
        · exact Or.inl (Or.inl hq.symm)
        · exact Or.inr ⟨r, hr, hq⟩

theorem objLookup_copyFold_of_not_mem (kvs : List (String × JVal)) :
    ∀ (l : List (String × JVal)) (q : String),
      (∀ p ∈ kvs, upcase_first p.1 ≠ q) →
      objLookup q (copyFold kvs l) = objLookup q l := by
  induction kvs with
  | nil => intro l q _; rw [copyFold_nil]
  | cons p kvs ih =>
    intro l q h
    rw [copyFold_cons, ih _ _ (fun r hr => h r (by simp [hr])),
      objLookup_objInsert_ne _ _ _ _ (h p (by simp))]

theorem objLookup_copyFold_self (kvs : List (String × JVal)) :
    ∀ (l : List (String × JVal)),
      (kvs.map (fun p => upcase_first p.1)).Nodup →
      ∀ p ∈ kvs, objLookup (upcase_first p.1) (copyFold kvs l) = some p.2 := by
  induction kvs with
  | nil => intro l _ p hp; cases hp
  | cons r0 kvs ih =>
    intro l hnd p hp
    rw [List.map_cons, List.nodup_cons] at hnd
    rcases List.mem_cons.mp hp with rfl | hp
    · rw [copyFold_cons,
        objLookup_copyFold_of_not_mem _ _ _ (by
          intro r hr hq
          exact hnd.1 (hq ▸ List.mem_map_of_mem (fun s => upcase_first s.1) hr)),
        objLookup_objInsert_self]
    · rw [copyFold_cons]
      exact ih _ hnd.2 p hp

theorem foldl_jsonSet_obj (kvs : List (String × JVal)) :
    ∀ (l : List (String × JVal)),
      kvs.foldl (fun acc p => jsonSet acc (upcase_first p.1) p.2) (JVal.obj l) =
        JVal.obj (copyFold kvs l) := by
  induction kvs with
  | nil => intro l; rfl
  | cons p kvs ih => intro l; rw [copyFold_cons, List.foldl_cons]; exact ih _

theorem copy_values_obj (kvs l : List (String × JVal)) :
    copy_values (JVal.obj kvs) (JVal.obj l) = (true, JVal.obj (copyFold kvs l)) := by
  rw [copy_values, foldl_jsonSet_obj]

theorem typedPayloadChoice_error {data : CipherData} {e : ApiErr}
    (h : typedPayloadChoice data = .error e) : e = .badRequest "Invalid type" := by
  unfold typedPayloadChoice at h
  split_ifs at h
  all_goals (cases h; try rfl)

theorem typedPayloadChoice_invalid {data : CipherData}
    (h1 : data.type_ ≠ 1) (h2 : data.type_ ≠ 2) (h3 : data.type_ ≠ 3) (h4 : data.type_ ≠ 4) :
    typedPayloadChoice data = .error (.badRequest "Invalid type") := by
  unfold typedPayloadChoice
  simp [h1, h2, h3, h4]

theorem buildValues_ok_of_FieldsOk {data : CipherData} (h : FieldsOk data) :
    ∃ bv, buildValues data = .ok (JVal.obj bv) ∧
      ∀ q, q ∈ objKeys bv ↔ q = "Fields" ∨ q = "Name" ∨ q = "Notes" := by
  rcases h with h | ⟨fs, h⟩
  · refine ⟨objInsert "Fields" JVal.null
      (objInsert "Notes" (match data.notes with | some s => JVal.str s | none => JVal.null)
        (objInsert "Name" (JVal.str data.name) [])), ?_, fun q => ?_⟩
    · rw [buildValues, h]
    · rw [mem_objKeys_objInsert, mem_objKeys_objInsert, mem_objKeys_objInsert]
      simp only [objKeys, List.map_nil, List.not_mem_nil, or_false]
      tauto
  · refine ⟨objInsert "Fields" (JVal.arr (fs.map (fun f => (copy_values f (JVal.obj [])).2)))
      (objInsert "Notes" (match data.notes with | some s => JVal.str s | none => JVal.null)
        (objInsert "Name" (JVal.str data.name) [])), ?_, fun q => ?_⟩
    · rw [buildValues, h]
    · rw [mem_objKeys_objInsert, mem_objKeys_objInsert, mem_objKeys_objInsert]
      simp only [objKeys, List.map_nil, List.not_mem_nil, or_false]
      tauto

@[simp] theorem applyOrg_uuid (c : Cipher) (d : CipherData) : (applyOrg c d).uuid = c.uuid := by
  unfold applyOrg; split <;> rfl

@[simp] theorem applyOrg_user_uuid (c : Cipher) (d : CipherData) :
    (applyOrg c d).user_uuid = c.user_uuid := by
  unfold applyOrg; split <;> rfl

@[simp] theorem applyOrg_name (c : Cipher) (d : CipherData) : (applyOrg c d).name = c.name := by
  unfold applyOrg; split <;> rfl

@[simp] theorem applyOrg_favorite (c : Cipher) (d : CipherData) :
    (applyOrg c d).favorite = c.favorite := by
  unfold applyOrg; split <;> rfl

@[simp] theorem applyOrg_folder_uuid (c : Cipher) (d : CipherData) :
    (applyOrg c d).folder_uuid = c.folder_uuid := by
  unfold applyOrg; split <;> rfl

@[simp] theorem applyOrg_notes (c : Cipher) (d : CipherData) : (applyOrg c d).notes = c.notes := by
  unfold applyOrg; split <;> rfl

@[simp] theorem applyOrg_fields (c : Cipher) (d : CipherData) :
    (applyOrg c d).fields = c.fields := by
  unfold applyOrg; split <;> rfl

@[simp] theorem applyNotes_uuid (c : Cipher) (d : CipherData) :
    (applyNotes c d).uuid = c.uuid := by
  unfold applyNotes; split <;> rfl

@[simp] theorem applyNotes_user_uuid (c : Cipher) (d : CipherData) :
    (applyNotes c d).user_uuid = c.user_uuid := by
  unfold applyNotes; split <;> rfl

@[simp] theorem applyNotes_name (c : Cipher) (d : CipherData) :
    (applyNotes c d).name = c.name := by
  unfold applyNotes; split <;> rfl

@[simp] theorem applyNotes_favorite (c : Cipher) (d : CipherData) :
    (applyNotes c d).favorite = c.favorite := by
  unfold applyNotes; split <;> rfl

@[simp] theorem applyNotes_folder_uuid (c : Cipher) (d : CipherData) :
    (applyNotes c d).folder_uuid = c.folder_uuid := by
  unfold applyNotes; split <;> rfl

@[simp] theorem applyNotes_fields (c : Cipher) (d : CipherData) :
    (applyNotes c d).fields = c.fields := by
  unfold applyNotes; split <;> rfl

theorem applyNotes_notes (c : Cipher) (d : CipherData) :
    (applyNotes c d).notes = if d.notes.isSome then d.notes else c.notes := by
  unfold applyNotes; split <;> simp_all

@[simp] theorem applyFields_uuid (c : Cipher) (d : CipherData) :
    (applyFields c d).uuid = c.uuid := by
  unfold applyFields; split <;> rfl

@[simp] theorem applyFields_user_uuid (c : Cipher) (d : CipherData) :
    (applyFields c d).user_uuid = c.user_uuid := by
  unfold applyFields; split <;> rfl

@[simp] theorem applyFields_name (c : Cipher) (d : CipherData) :
    (applyFields c d).name = c.name := by
  unfold applyFields; split <;> rfl

@[simp] theorem applyFields_favorite (c : Cipher) (d : CipherData) :
    (applyFields c d).favorite = c.favorite := by
  unfold applyFields; split <;> rfl

@[simp] theorem applyFields_folder_uuid (c : Cipher) (d : CipherData) :
    (applyFields c d).folder_uuid = c.folder_uuid := by
  unfold applyFields; split <;> rfl

@[simp] theorem applyFields_notes (c : Cipher) (d : CipherData) :
    (applyFields c d).notes = c.notes := by
  unfold applyFields; split <;> rfl

theorem applyFields_fields (c : Cipher) (d : CipherData) :
    (applyFields c d).fields = match d.fields with
      | some f => some (JVal.toString f)
      | none => c.fields := by
  unfold applyFields; split <;> simp_all

theorem updateAfterFolder_ok_inv {cipher : Cipher} {data : CipherData} {c' : Cipher}
    (h : updateAfterFolder cipher data = (.ok (), c')) :
    c'.uuid = cipher.uuid ∧ c'.user_uuid = cipher.user_uuid ∧ c'.name = cipher.name ∧
      c'.favorite = cipher.favorite ∧ c'.folder_uuid = cipher.folder_uuid ∧
      c'.notes = (if data.notes.isSome then data.notes else cipher.notes) ∧
      (data.fields = none → c'.fields = cipher.fields) ∧
      (∀ f, data.fields = some f → c'.fields = some (JVal.toString f)) ∧
      mergedDataString data = some c'.data := by
  unfold updateAfterFolder at h
  rcases hbv : buildValues data with e | values
  · rw [hbv] at h; simp at h
  · rw [hbv] at h
    dsimp only at h
    rcases htc : typedPayloadChoice data with e | otd
    · rw [htc] at h; simp at h
    · rw [htc] at h
      rcases otd with _ | td
      · simp at h
      · dsimp only at h
        rcases hcv : copy_values td values with ⟨b, merged⟩
        rw [hcv] at h
        cases b
        · simp at h
        · dsimp only at h
          simp only [Prod.mk.injEq] at h
          obtain ⟨-, rfl⟩ := h
          refine ⟨by simp, by simp, by simp, by simp, by simp, by simp [applyNotes_notes],
            ?_, ?_, ?_⟩
          · intro hdf; simp [applyFields_fields, hdf]
          · intro f hdf; simp [applyFields_fields, hdf]
          · simp only [mergedDataString, hbv, htc, hcv]

theorem update_none_folder {data : CipherData} (cipher : Cipher) (headers : Headers)
    (conn : DB) (hf : data.folderId = none) :
    update_cipher_from_data cipher data headers conn = updateAfterFolder cipher data := by
  unfold update_cipher_from_data
  rw [hf]

theorem update_ok_inv {cipher c' : Cipher} {data : CipherData} {headers : Headers} {conn : DB}
    (h : update_cipher_from_data cipher data headers conn = (.ok (), c')) :
    c'.uuid = cipher.uuid ∧ c'.user_uuid = cipher.user_uuid ∧ c'.name = cipher.name ∧
      c'.favorite = cipher.favorite ∧
      c'.notes = (if data.notes.isSome then data.notes else cipher.notes) ∧
      (data.fields = none → c'.fields = cipher.fields) ∧
      (∀ f, data.fields = some f → c'.fields = some (JVal.toString f)) ∧
      mergedDataString data = some c'.data := by
  unfold update_cipher_from_data at h
  rcases hf : data.folderId with _ | fid
  · rw [hf] at h
    dsimp only at h
    obtain ⟨h1, h2, h3, h4, _h5, h6, h7, h8, h9⟩ := updateAfterFolder_ok_inv h
    exact ⟨h1, h2, h3, h4, h6, h7, h8, h9⟩
  · rw [hf] at h
    dsimp only at h
    rcases hfind : Folder.find_by_uuid fid conn with _ | folder
    · rw [hfind] at h; simp at h
    · rw [hfind] at h
      dsimp only at h
      by_cases hown : folder.user_uuid = headers.user.uuid
      · rw [if_pos hown] at h
        obtain ⟨h1, h2, h3, h4, _h5, h6, h7, h8, h9⟩ := updateAfterFolder_ok_inv h
        exact ⟨by simpa using h1, by simpa using h2, by simpa using h3, by simpa using h4,
          by simpa using h6, fun hdf => by simpa using h7 hdf,
          fun f hdf => by simpa using h8 f hdf, h9⟩
      · rw [if_neg hown] at h; simp at h

theorem updateAfterFolder_ok {data : CipherData} (cipher : Cipher)
    (hfo : FieldsOk data) {kvs : List (String × JVal)}
    (htc : typedPayloadChoice data = .ok (some (JVal.obj kvs))) :
    ∃ bv, buildValues data = .ok (JVal.obj bv) ∧
      (∀ q, q ∈ objKeys bv ↔ q = "Fields" ∨ q = "Name" ∨ q = "Notes") ∧
      updateAfterFolder cipher data =
        (.ok (), { applyFields (applyNotes (applyOrg cipher data) data) data with
          data := JVal.toString (JVal.obj (copyFold kvs bv)) }) := by
  obtain ⟨bv, hbv, hkeys⟩ := buildValues_ok_of_FieldsOk hfo
  refine ⟨bv, hbv, hkeys, ?_⟩
  unfold updateAfterFolder
  simp only [hbv, htc, copy_values_obj]

theorem update_ok_of_CipherDataOk {data : CipherData} (hok : CipherDataOk data)
    (cipher : Cipher) (headers : Headers) (conn : DB) :
    ∃ c', update_cipher_from_data cipher data headers conn = (.ok (), c') ∧
      c'.uuid = cipher.uuid ∧ c'.user_uuid = cipher.user_uuid ∧ c'.name = cipher.name ∧
      c'.favorite = cipher.favorite ∧ c'.folder_uuid = cipher.folder_uuid := by
  obtain ⟨hf, hfo, kvs, htc⟩ := hok
  obtain ⟨bv, hbv, hkeys, heq⟩ := updateAfterFolder_ok cipher hfo htc
  rw [update_none_folder cipher headers conn hf, heq]
  exact ⟨_, rfl, by simp, by simp, by simp, by simp, by simp⟩

theorem update_merge_fails {data : CipherData} (hmf : MergeFails data)
    (cipher : Cipher) (headers : Headers) (conn : DB) :
    ∃ msg, (update_cipher_from_data cipher data headers conn).1 = .error (.badRequest msg) := by
  obtain ⟨hf, hfo, hne⟩ := hmf
  obtain ⟨bv, hbv, -⟩ := buildValues_ok_of_FieldsOk hfo
  rw [update_none_folder cipher headers conn hf]
  unfold updateAfterFolder
  rcases htc : typedPayloadChoice data with e | otd
  · have he := typedPayloadChoice_error htc
    subst he
    simp only [hbv, htc]
    exact ⟨"Invalid type", rfl⟩
  · rcases otd with _ | td
    · simp only [hbv, htc]
      exact ⟨"Data missing", rfl⟩
    · cases td with
      | obj kvs2 => exact absurd htc (hne kvs2)
      | null => simp only [hbv, htc, copy_values]; exact ⟨"Data invalid", rfl⟩
      | bool b => simp only [hbv, htc, copy_values]; exact ⟨"Data invalid", rfl⟩
      | num n => simp only [hbv, htc, copy_values]; exact ⟨"Data invalid", rfl⟩
      | str s => simp only [hbv, htc, copy_values]; exact ⟨"Data invalid", rfl⟩
      | arr xs => simp only [hbv, htc, copy_values]; exact ⟨"Data invalid", rfl⟩

theorem update_folder_missing {data : CipherData} {fid : String}
    (cipher : Cipher) (headers : Headers) (conn : DB)
    (hf : data.folderId = some fid) (hfind : Folder.find_by_uuid fid conn = none) :
    update_cipher_from_data cipher data headers conn =
      (.error (.badRequest "Folder doesn't exist"), cipher) := by
  simp only [update_cipher_from_data, hf, hfind]

theorem update_folder_not_owned {data : CipherData} {fid : String} {folder : Folder}
    (cipher : Cipher) (headers : Headers) (conn : DB)
    (hf : data.folderId = some fid) (hfind : Folder.find_by_uuid fid conn = some folder)
    (hown : folder.user_uuid ≠ headers.user.uuid) :
    update_cipher_from_data cipher data headers conn =
      (.error (.badRequest "Folder is not owned by user"), cipher) := by
  simp only [update_cipher_from_data, hf, hfind]
  rw [if_neg hown]

theorem cipher_save_fresh {c : Cipher} {conn : DB}
    (h : c.uuid ∉ conn.ciphers.map Cipher.uuid) :
    Cipher.save c conn = { conn with ciphers := conn.ciphers ++ [c] } := by
  have hany : ¬(conn.ciphers.any (fun x => x.uuid == c.uuid) = true) := by
    simp only [List.any_eq_true, beq_iff_eq]
    rintro ⟨x, hx, hxe⟩
    exact h (hxe ▸ List.mem_map_of_mem Cipher.uuid hx)
  unfold Cipher.save
  rw [if_neg hany]

theorem folder_save_fresh {f : Folder} {conn : DB}
    (h : f.uuid ∉ conn.folders.map Folder.uuid) :
    Folder.save f conn = { conn with folders := conn.folders ++ [f] } := by
  have hany : ¬(conn.folders.any (fun x => x.uuid == f.uuid) = true) := by
    simp only [List.any_eq_true, beq_iff_eq]
    rintro ⟨x, hx, hxe⟩
    exact h (hxe ▸ List.mem_map_of_mem Folder.uuid hx)
  unfold Folder.save
  rw [if_neg hany]

theorem attachment_save_fresh {a : Attachment} {conn : DB}
    (h : a.id ∉ conn.attachments.map Attachment.id) :
    Attachment.save a conn = { conn with attachments := conn.attachments ++ [a] } := by
  have hany : ¬(conn.attachments.any (fun x => x.id == a.id) = true) := by
    simp only [List.any_eq_true, beq_iff_eq]
    rintro ⟨x, hx, hxe⟩
    exact h (hxe ▸ List.mem_map_of_mem Attachment.id hx)
  unfold Attachment.save
  rw [if_neg hany]

@[simp] theorem folder_save_keeps_ciphers (f : Folder) (conn : DB) :
    (Folder.save f conn).ciphers = conn.ciphers := by
  unfold Folder.save; split <;> rfl

@[simp] theorem folder_save_keeps_attachments (f : Folder) (conn : DB) :
    (Folder.save f conn).attachments = conn.attachments := by
  unfold Folder.save; split <;> rfl

@[simp] theorem cipher_save_keeps_folders (c : Cipher) (conn : DB) :
    (Cipher.save c conn).folders = conn.folders := by
  unfold Cipher.save; split <;> rfl

@[simp] theorem cipher_save_keeps_attachments (c : Cipher) (conn : DB) :
    (Cipher.save c conn).attachments = conn.attachments := by
  unfold Cipher.save; split <;> rfl

@[simp] theorem attachment_save_keeps_ciphers (a : Attachment) (conn : DB) :
    (Attachment.save a conn).ciphers = conn.ciphers := by
  unfold Attachment.save; split <;> rfl

@[simp] theorem attachment_save_keeps_folders (a : Attachment) (conn : DB) :
    (Attachment.save a conn).folders = conn.folders := by
  unfold Attachment.save; split <;> rfl

theorem foldl_folder_save_ciphers (fs : List Folder) :
    ∀ conn : DB, (fs.foldl (fun c f => Folder.save f c) conn).ciphers = conn.ciphers := by
  induction fs with
  | nil => intro conn; rfl
  | cons f fs ih => intro conn; rw [List.foldl_cons, ih, folder_save_keeps_ciphers]

theorem foldl_folder_save_attachments (fs : List Folder) :
    ∀ conn : DB, (fs.foldl (fun c f => Folder.save f c) conn).attachments = conn.attachments := by
  induction fs with
  | nil => intro conn; rfl
  | cons f fs ih => intro conn; rw [List.foldl_cons, ih, folder_save_keeps_attachments]

theorem foldl_folder_save_append (fs : List Folder) :
    ∀ conn : DB,
      (∀ f ∈ fs, f.uuid ∉ conn.folders.map Folder.uuid) →
      (fs.map Folder.uuid).Nodup →
      fs.foldl (fun c f => Folder.save f c) conn =
        { conn with folders := conn.folders ++ fs } := by
  induction fs with
  | nil => intro conn _ _; simp
  | cons f fs ih =>
    intro conn hfresh hnd
    rw [List.map_cons, List.nodup_cons] at hnd
    rw [List.foldl_cons, folder_save_fresh (hfresh f (by simp)), ih _ ?_ hnd.2]
    · simp
    · intro g hg
      simp only [List.map_append, List.mem_append, List.map_cons, List.map_nil,
        List.mem_singleton]
      rintro (hmem | hmem)
      · exact hfresh g (by simp [hg]) hmem
      · exact hnd.1 (hmem ▸ List.mem_map_of_mem Folder.uuid hg)

theorem mkImportFolders_length (su : Nat → String) (u : String) (fds : List FolderData) :
    ∀ i, (mkImportFolders su u fds i).length = fds.length := by
  induction fds with
  | nil => intro i; rfl
  | cons fd fds ih => intro i; simp [mkImportFolders, ih]

theorem mkImportFolders_getElem (su : Nat → String) (u : String) (fds : List FolderData) :
    ∀ i j, (mkImportFolders su u fds i)[j]? =
      (fds[j]?).map (fun fd => Folder.new (su (i + j)) u fd.name) := by
  induction fds with
  | nil => intro i j; simp [mkImportFolders]
  | cons fd fds ih =>
    intro i j
    cases j with
    | zero => simp [mkImportFolders]
    | succ j =>
      have harith : i + 1 + j = i + (j + 1) := by omega
      simp only [mkImportFolders, List.getElem?_cons_succ]
      rw [ih (i + 1) j, harith]

theorem mkImportFolders_map_uuid (su : Nat → String) (u : String) (fds : List FolderData) :
    ∀ i, (mkImportFolders su u fds i).map Folder.uuid =
      (List.range fds.length).map (fun j => su (i + j)) := by
  induction fds with
  | nil => intro i; rfl
  | cons fd fds ih =>
    intro i
    rw [List.length_cons, List.range_succ_eq_map]
    simp only [mkImportFolders, List.map_cons, List.map_map]
    rw [ih (i + 1)]
    refine congrArg (fun l => _ :: l) ?_
    refine List.map_congr_left (fun j _ => ?_)
    simp only [Function.comp]
    exact congrArg su (by omega)

theorem mapGet_mapInsert (k q v : Nat) (m : List (Nat × Nat)) :
    mapGet q (mapInsert k v m) = if k = q then some v else mapGet q m := by
  induction m with
  | nil => by_cases h : k = q <;> simp [mapInsert, mapGet, h]
  | cons p rest ih =>
    by_cases h1 : p.1 = k
    · rw [mapInsert, if_pos h1]
      by_cases h2 : k = q
      · simp [mapGet, h2]
      · have hp : ¬p.1 = q := fun hq => h2 (h1 ▸ hq)
        simp [mapGet, h2, hp]
    · rw [mapInsert, if_neg h1]
      by_cases hp : p.1 = q
      · have h2 : ¬k = q := fun hq => h1 (hp.trans hq.symm)
        simp [mapGet, hp, h2]
      · simp [mapGet, hp, ih]

theorem mapGet_buildRelMap_aux (rels : List RelationsData) :
    ∀ (m : List (Nat × Nat)) (k : Nat),
      mapGet k (rels.foldl (fun m r => mapInsert r.key r.value m) m) =
        rels.foldl (fun acc r => if r.key = k then some r.value else acc) (mapGet k m) := by
  induction rels with
  | nil => intro m k; rfl
  | cons r rels ih =>
    intro m k
    rw [List.foldl_cons, List.foldl_cons, ih, mapGet_mapInsert]

theorem mapGet_buildRelMap (rels : List RelationsData) (k : Nat) :
    mapGet k (buildRelMap rels) = lastValue k rels := by
  unfold buildRelMap lastValue
  rw [mapGet_buildRelMap_aux]
  rfl

theorem impLoop_cons_ok (headers : Headers) (su : Nat → String) (nf : Nat)
    (folders : List Folder) (m : List (Nat × Nat)) (cd : CipherData)
    (rest : List CipherData) (index : Nat) (conn : DB)
    (hok : CipherDataOk cd)
    (hrange : ∀ v, mapGet index m = some v → v < folders.length) :
    ∃ cj,
      impLoop headers su nf folders m (cd :: rest) index conn =
        impLoop headers su nf folders m rest (index + 1) (Cipher.save cj conn) ∧
      cj.uuid = su (nf + index) ∧ cj.user_uuid = headers.user.uuid ∧
      cj.name = cd.name ∧ cj.favorite = cd.favorite ∧
      cj.folder_uuid = (mapGet index m).bind (fun v => (folders[v]?).map Folder.uuid) := by
  obtain ⟨c', hupd, hu, huser, hname, hfav, -⟩ :=
    update_ok_of_CipherDataOk hok
      (Cipher.new (su (nf + index)) headers.user.uuid cd.type_ cd.name cd.favorite) headers conn
  rw [impLoop]
  rcases hm : mapGet index m with _ | v
  · simp only [hm]
    rw [hupd]
    dsimp only
    refine ⟨{ c' with folder_uuid := none }, rfl, ?_, ?_, ?_, ?_, ?_⟩ <;>
      simp [hu, huser, hname, hfav, Cipher.new]
  · have hv := hrange v hm
    simp only [hm]
    rw [dif_pos hv, hupd]
    dsimp only
    refine ⟨{ c' with folder_uuid := some (folders.get ⟨v, hv⟩).uuid }, rfl, ?_, ?_, ?_, ?_, ?_⟩ <;>
      simp [hu, huser, hname, hfav, Cipher.new, List.getElem?_eq_getElem hv, List.get_eq_getElem]

theorem impLoop_ok_append (headers : Headers) (su : Nat → String) (nf : Nat)
    (folders : List Folder) (m : List (Nat × Nat)) :
    ∀ (cds : List CipherData) (index : Nat) (conn : DB),
      (∀ cd ∈ cds, CipherDataOk cd) →
      (∀ j, j < cds.length → ∀ v, mapGet (index + j) m = some v → v < folders.length) →
      (∀ j, j < cds.length → su (nf + index + j) ∉ conn.ciphers.map Cipher.uuid) →
      (∀ j1 j2, j1 < cds.length → j2 < cds.length → j1 ≠ j2 →
        su (nf + index + j1) ≠ su (nf + index + j2)) →
      ∃ created,
        impLoop headers su nf folders m cds index conn =
          (.ok (), { conn with ciphers := conn.ciphers ++ created }) ∧
        created.length = cds.length ∧
        ∀ j, j < cds.length → ∃ cj, created[j]? = some cj ∧
          cj.uuid = su (nf + index + j) ∧ cj.user_uuid = headers.user.uuid ∧
          cj.folder_uuid =
            (mapGet (index + j) m).bind (fun v => (folders[v]?).map Folder.uuid) ∧
          ∃ cd, cds[j]? = some cd ∧ cj.name = cd.name ∧ cj.favorite = cd.favorite := by
  intro cds
  induction cds with
  | nil =>
    intro index conn _ _ _ _
    exact ⟨[], by simp [impLoop], rfl, fun j hj => absurd hj (by simp)⟩
  | cons cd rest ih =>
    intro index conn hok hrange hfresh hinj
    obtain ⟨cj, hstep, hju, hjuser, hjname, hjfav, hjfold⟩ :=
      impLoop_cons_ok headers su nf folders m cd rest index conn (hok cd (by simp))
        (fun v hv => hrange 0 (by simp) v (by simpa using hv))
    have hfresh0 : cj.uuid ∉ conn.ciphers.map Cipher.uuid := by
      rw [hju]
      simpa using hfresh 0 (by simp)
    rw [hstep, cipher_save_fresh hfresh0]
    obtain ⟨created, hloop, hlen, hprops⟩ :=
      ih (index + 1) { conn with ciphers := conn.ciphers ++ [cj] }
        (fun cd2 h2 => hok cd2 (by simp [h2]))
        (fun j hj v hv => hrange (j + 1) (by simp only [List.length_cons]; omega) v (by
          have harith : index + 1 + j = index + (j + 1) := by omega
          rwa [harith] at hv))
        (fun j hj => by
          have harith : nf + (index + 1) + j = nf + index + (j + 1) := by omega
          rw [harith]
          simp only [List.map_append, List.mem_append]
          rintro (hmem | hmem)
          · exact hfresh (j + 1) (by simp only [List.length_cons]; omega) hmem
          · simp only [List.map_cons, List.map_nil, List.mem_singleton] at hmem
            rw [hju] at hmem
            exact hinj (j + 1) 0 (by simp only [List.length_cons]; omega) (by simp)
              (by omega) (by simpa using hmem))
        (fun j1 j2 hj1 hj2 hne => by
          have h1 : nf + (index + 1) + j1 = nf + index + (j1 + 1) := by omega
          have h2 : nf + (index + 1) + j2 = nf + index + (j2 + 1) := by omega
          rw [h1, h2]
          exact hinj (j1 + 1) (j2 + 1) (by simp only [List.length_cons]; omega)
            (by simp only [List.length_cons]; omega) (by omega))
    refine ⟨cj :: created, ?_, by simpa using hlen, ?_⟩
    · rw [hloop]
      simp [List.append_assoc]
    · intro j hj
      cases j with
      | zero =>
        exact ⟨cj, by simp, by simpa using hju, hjuser, by simpa using hjfold,
          cd, by simp, hjname, hjfav⟩
      | succ j =>
        obtain ⟨cj2, hcj2, hu2, huser2, hfold2, cd2, hcd2, hname2, hfav2⟩ :=
          hprops j (by simp only [List.length_cons] at hj; omega)
        refine ⟨cj2, by simpa using hcj2, ?_, huser2, ?_, cd2, by simpa using hcd2,
          hname2, hfav2⟩
        · rw [hu2]; exact congrArg su (by omega)
        · rw [hfold2]
          have harith : index + 1 + j = index + (j + 1) := by omega
          rw [harith]

theorem impLoop_fail_append (headers : Headers) (su : Nat → String) (nf : Nat)
    (folders : List Folder) (m : List (Nat × Nat)) :
    ∀ (pre : List CipherData) (bad : CipherData) (rest : List CipherData)
      (index : Nat) (conn : DB),
      (∀ cd ∈ pre, CipherDataOk cd) → MergeFails bad →
      (∀ j, j ≤ pre.length → ∀ v, mapGet (index + j) m = some v → v < folders.length) →
      (∀ j, j < pre.length → su (nf + index + j) ∉ conn.ciphers.map Cipher.uuid) →
      (∀ j1 j2, j1 < pre.length → j2 < pre.length → j1 ≠ j2 →
        su (nf + index + j1) ≠ su (nf + index + j2)) →
      ∃ created,
        impLoop headers su nf folders m (pre ++ bad :: rest) index conn =
          (.error (.badRequest "Error creating cipher"),
            { conn with ciphers := conn.ciphers ++ created }) ∧
        created.length = pre.length ∧
        ∀ j, j < pre.length → ∃ cj, created[j]? = some cj ∧
          cj.uuid = su (nf + index + j) := by
  intro pre
  induction pre with
  | nil =>
    intro bad rest index conn _ hmf hrange _ _
    refine ⟨[], ?_, rfl, fun j hj => absurd hj (by simp)⟩
    obtain ⟨msg, hmsg⟩ := update_merge_fails hmf
      (Cipher.new (su (nf + index)) headers.user.uuid bad.type_ bad.name bad.favorite)
      headers conn
    rcases hres : update_cipher_from_data
        (Cipher.new (su (nf + index)) headers.user.uuid bad.type_ bad.name bad.favorite)
        bad headers conn with ⟨r, c2⟩
    rw [hres] at hmsg
    dsimp only at hmsg
    subst hmsg
    rw [List.nil_append, impLoop]
    rcases hm : mapGet index m with _ | v
    · simp only [hm]
      rw [hres]
      simp
    · simp only [hm]
      rw [dif_pos (hrange 0 (by simp) v (by simpa using hm)), hres]
      simp
  | cons cd pre ih =>
    intro bad rest index conn hok hmf hrange hfresh hinj
    obtain ⟨cj, hstep, hju, -, -, -, -⟩ :=
      impLoop_cons_ok headers su nf folders m cd (pre ++ bad :: rest) index conn
        (hok cd (by simp))
        (fun v hv => hrange 0 (by simp) v (by simpa using hv))
    have hfresh0 : cj.uuid ∉ conn.ciphers.map Cipher.uuid := by
      rw [hju]
      simpa using hfresh 0 (by simp)
    rw [List.cons_append, hstep, cipher_save_fresh hfresh0]
    obtain ⟨created, hloop, hlen, hprops⟩ :=
      ih bad rest (index + 1) { conn with ciphers := conn.ciphers ++ [cj] }
        (fun cd2 h2 => hok cd2 (by simp [h2]))
        hmf
        (fun j hj v hv => hrange (j + 1) (by simp only [List.length_cons]; omega) v (by
          have harith : index + 1 + j = index + (j + 1) := by omega
          rwa [harith] at hv))
        (fun j hj => by
          have harith : nf + (index + 1) + j = nf + index + (j + 1) := by omega
          rw [harith]
          simp only [List.map_append, List.mem_append]
          rintro (hmem | hmem)
          · exact hfresh (j + 1) (by simp only [List.length_cons]; omega) hmem
          · simp only [List.map_cons, List.map_nil, List.mem_singleton] at hmem
            rw [hju] at hmem
            exact hinj (j + 1) 0 (by simp only [List.length_cons]; omega) (by simp)
              (by omega) (by simpa using hmem))
        (fun j1 j2 hj1 hj2 hne => by
          have h1 : nf + (index + 1) + j1 = nf + index + (j1 + 1) := by omega
          have h2 : nf + (index + 1) + j2 = nf + index + (j2 + 1) := by omega
          rw [h1, h2]
          exact hinj (j1 + 1) (j2 + 1) (by simp only [List.length_cons]; omega)
            (by simp only [List.length_cons]; omega) (by omega))
    refine ⟨cj :: created, ?_, by simpa using hlen, ?_⟩
    · rw [hloop]
      simp [List.append_assoc]
    · intro j hj
      cases j with
      | zero => exact ⟨cj, by simp, by simpa using hju⟩
      | succ j =>
        obtain ⟨cj2, hcj2, hu2⟩ := hprops j (by simp only [List.length_cons] at hj; omega)
        refine ⟨cj2, by simpa using hcj2, ?_⟩
        rw [hu2]
        exact congrArg su (by omega)

theorem impLoop_panic_at (headers : Headers) (su : Nat → String) (nf : Nat)
    (folders : List Folder) (m : List (Nat × Nat)) :
    ∀ (cds : List CipherData) (j0 v : Nat) (index : Nat) (conn : DB),
      (∀ cd ∈ cds, CipherDataOk cd) →
      j0 < cds.length →
      mapGet (index + j0) m = some v → folders.length ≤ v →
      (∀ j, j < j0 → ∀ w, mapGet (index + j) m = some w → w < folders.length) →
      (impLoop headers su nf folders m cds index conn).1 =
        .error (.panic "index out of bounds") := by
  intro cds
  induction cds with
  | nil => intro j0 v index conn _ hj0 _ _ _; simp at hj0
  | cons cd rest ih =>
    intro j0 v index conn hok hj0 hm hge hmin
    cases j0 with
    | zero =>
      rw [impLoop]
      simp only [Nat.add_zero] at hm
      simp only [hm]
      rw [dif_neg (by omega)]
    | succ j0 =>
      obtain ⟨cj, hstep, -, -, -, -, -⟩ :=
        impLoop_cons_ok headers su nf folders m cd rest index conn (hok cd (by simp))
          (fun w hw => hmin 0 (by omega) w (by simpa using hw))
      rw [hstep]
      refine ih j0 v (index + 1) _ (fun cd2 h2 => hok cd2 (by simp [h2]))
        (by simp only [List.length_cons] at hj0; omega) ?_ hge ?_
      · have harith : index + 1 + j0 = index + (j0 + 1) := by omega
        rwa [harith]
      · intro j hj w hw
        refine hmin (j + 1) (by omega) w ?_
        have harith : index + (j + 1) = index + 1 + j := by omega
        rwa [harith]

theorem post_ciphers_import_eq (data : ImportData) (headers : Headers) (conn : DB)
    (su : Nat → String)
    (hfreshF : ∀ k, k < data.folders.length → su k ∉ conn.folders.map Folder.uuid)
    (hinjF : ∀ a b, a < data.folders.length → b < data.folders.length → a ≠ b → su a ≠ su b) :
    post_ciphers_import data headers conn su =
      impLoop headers su data.folders.length
        (mkImportFolders su headers.user.uuid data.folders 0)
        (buildRelMap data.folderRelationships) data.ciphers 0
        { conn with folders :=
            conn.folders ++ mkImportFolders su headers.user.uuid data.folders 0 } := by
  unfold post_ciphers_import
  dsimp only
  rw [foldl_folder_save_append _ conn ?fresh ?nodup]
  case fresh =>
    intro f hf
    have hmem : f.uuid ∈ (mkImportFolders su headers.user.uuid data.folders 0).map Folder.uuid :=
      List.mem_map_of_mem Folder.uuid hf
    rw [mkImportFolders_map_uuid] at hmem
    simp only [List.mem_map, List.mem_range, Nat.zero_add] at hmem
    obtain ⟨j, hj, hje⟩ := hmem
    rw [← hje]
    exact hfreshF j hj
  case nodup =>
    rw [mkImportFolders_map_uuid]
    simp only [Nat.zero_add]
    refine List.Nodup.map_on ?_ (List.nodup_range _)
    intro x hx y hy heq
    by_contra hne
    exact hinjF x y (List.mem_range.mp hx) (List.mem_range.mp hy) hne heq

@[simp] theorem attachment_delete_keeps_ciphers (a : Attachment) (conn : DB) :
    (Attachment.delete a conn).ciphers = conn.ciphers := rfl

@[simp] theorem attachment_delete_keeps_folders (a : Attachment) (conn : DB) :
    (Attachment.delete a conn).folders = conn.folders := rfl

@[simp] theorem cipher_delete_keeps_folders (c : Cipher) (conn : DB) :
    (Cipher.delete c conn).folders = conn.folders := rfl

@[simp] theorem cipher_delete_keeps_attachments (c : Cipher) (conn : DB) :
    (Cipher.delete c conn).attachments = conn.attachments := rfl

@[simp] theorem folder_delete_keeps_ciphers (f : Folder) (conn : DB) :
    (Folder.delete f conn).ciphers = conn.ciphers := rfl

@[simp] theorem folder_delete_keeps_attachments (f : Folder) (conn : DB) :
    (Folder.delete f conn).attachments = conn.attachments := rfl

theorem attachLoop_ok (cipher : Cipher) (rng : Nat → List Nat) :
    ∀ (parts : List UploadPart) (i : Nat) (conn : DB),
      (∀ p ∈ parts, p.filename.isSome) →
      ((List.range parts.length).map (fun j => hexLower (rng (i + j)))).Nodup →
      (∀ j, j < parts.length → hexLower (rng (i + j)) ∉ conn.attachments.map Attachment.id) →
      attachLoop cipher rng parts i conn =
        (.ok (), { conn with attachments :=
          conn.attachments ++ spec_attachment_rows cipher.uuid rng parts i }) := by
  intro parts
  induction parts with
  | nil => intro i conn _ _ _; simp [attachLoop, spec_attachment_rows]
  | cons p rest ih =>
    intro i conn hfn hnd hfresh
    obtain ⟨name, hname⟩ := Option.isSome_iff_exists.mp (hfn p (by simp))
    have hcomp : ((fun j => hexLower (rng (i + j))) ∘ Nat.succ) =
        (fun j => hexLower (rng (i + 1 + j))) :=
      funext fun j => congrArg (fun t => hexLower (rng t)) (by omega)
    rw [List.length_cons, List.range_succ_eq_map, List.map_cons, List.map_map, hcomp,
      List.nodup_cons, Nat.add_zero] at hnd
    have hhead : ∀ j, j < rest.length → hexLower (rng (i + 1 + j)) ≠ hexLower (rng i) := by
      intro j hj heq
      exact hnd.1 (heq ▸ List.mem_map_of_mem _ (List.mem_range.mpr hj))
    have hfesh1 : ∀ j, j < rest.length →
        hexLower (rng (i + 1 + j)) ∉ conn.attachments.map Attachment.id := by
      intro j hj
      have harith : i + 1 + j = i + (j + 1) := by omega
      rw [harith]
      exact hfresh (j + 1) (by simp only [List.length_cons]; omega)
    rcases hout : p.save_outcome with size | _
    · rw [attachLoop, hname]
      dsimp only
      rw [hout]
      dsimp only
      have hfreshAtt : (Attachment.new (hexLower (rng i)) cipher.uuid name
          (i32_of_u64 size)).id ∉ conn.attachments.map Attachment.id := by
        simpa [Attachment.new] using hfresh 0 (by simp)
      rw [attachment_save_fresh hfreshAtt]
      rw [ih (i + 1) _ (fun q hq => hfn q (by simp [hq])) hnd.2 ?freshrec]
      case freshrec =>
        intro j hj
        simp only [List.map_append, List.mem_append]
        rintro (hmem | hmem)
        · exact hfesh1 j hj hmem
        · simp only [List.map_cons, List.map_nil, List.mem_singleton, Attachment.new] at hmem
          exact hhead j hj hmem
      simp [spec_attachment_rows, hout, hname, List.append_assoc]
    · rw [attachLoop, hname]
      dsimp only
      rw [hout]
      dsimp only
      rw [ih (i + 1) conn (fun q hq => hfn q (by simp [hq])) hnd.2 hfesh1]
      simp [spec_attachment_rows, hout]

theorem attachLoop_never_badRequest (cipher : Cipher) (rng : Nat → List Nat) :
    ∀ (parts : List UploadPart) (i : Nat) (conn : DB),
      (attachLoop cipher rng parts i conn).1 = .ok () ∨
        ∃ msg, (attachLoop cipher rng parts i conn).1 = .error (.panic msg) := by
  intro parts
  induction parts with
  | nil => intro i conn; exact Or.inl rfl
  | cons p rest ih =>
    intro i conn
    rcases hname : p.filename with _ | name
    · rw [attachLoop, hname]
      exact Or.inr ⟨_, rfl⟩
    · rw [attachLoop, hname]
      dsimp only
      rcases hout : p.save_outcome with size | _
      · dsimp only; exact ih (i + 1) _
      · dsimp only; exact ih (i + 1) conn

theorem foldl_att_delete_mem (atts : List Attachment) :
    ∀ (conn : DB) (a : Attachment),
      a ∈ (atts.foldl (fun c2 x => Attachment.delete x c2) conn).attachments →
      a ∈ conn.attachments ∧ ∀ b ∈ atts, a.id ≠ b.id := by
  induction atts with
  | nil => intro conn a ha; exact ⟨ha, by simp⟩
  | cons b atts ih =>
    intro conn a ha
    rw [List.foldl_cons] at ha
    obtain ⟨ha1, ha2⟩ := ih _ a ha
    unfold Attachment.delete at ha1
    simp only [List.mem_filter, bne_iff_ne, ne_eq] at ha1
    refine ⟨ha1.1, fun c hc => ?_⟩
    rcases List.mem_cons.mp hc with rfl | hc
    · simpa using ha1.2
    · exact ha2 c hc

theorem foldl_att_delete_ciphers (atts : List Attachment) :
    ∀ conn : DB,
      (atts.foldl (fun c2 x => Attachment.delete x c2) conn).ciphers = conn.ciphers := by
  induction atts with
  | nil => intro conn; rfl
  | cons b atts ih => intro conn; rw [List.foldl_cons, ih]; rfl

theorem foldl_att_delete_folders (atts : List Attachment) :
    ∀ conn : DB,
      (atts.foldl (fun c2 x => Attachment.delete x c2) conn).folders = conn.folders := by
  induction atts with
  | nil => intro conn; rfl
  | cons b atts ih => intro conn; rw [List.foldl_cons, ih]; rfl

theorem foldl_purge_ciphers_mem (cs : List Cipher) :
    ∀ (conn : DB) (x : Cipher),
      x ∈ (cs.foldl (fun c cipher =>
        Cipher.delete cipher ((Attachment.find_by_cipher cipher.uuid c).foldl
          (fun c2 a => Attachment.delete a c2) c)) conn).ciphers →
      x ∈ conn.ciphers ∧ ∀ d ∈ cs, x.uuid ≠ d.uuid := by
  induction cs with
  | nil => intro conn x hx; exact ⟨hx, by simp⟩
  | cons d cs ih =>
    intro conn x hx
    rw [List.foldl_cons] at hx
    obtain ⟨hx1, hx2⟩ := ih _ x hx
    unfold Cipher.delete at hx1
    dsimp only at hx1
    simp only [List.mem_filter, bne_iff_ne, ne_eq] at hx1
    rw [foldl_att_delete_ciphers] at hx1
    refine ⟨hx1.1, fun c hc => ?_⟩
    rcases List.mem_cons.mp hc with rfl | hc
    · simpa using hx1.2
    · exact hx2 c hc

theorem foldl_purge_attachments_mem (cs : List Cipher) :
    ∀ (conn : DB) (a : Attachment),
      a ∈ (cs.foldl (fun c cipher =>
        Cipher.delete cipher ((Attachment.find_by_cipher cipher.uuid c).foldl
          (fun c2 a => Attachment.delete a c2) c)) conn).attachments →
      a ∈ conn.attachments ∧ ∀ d ∈ cs, a.cipher_uuid ≠ d.uuid := by
  induction cs with
  | nil => intro conn a ha; exact ⟨ha, by simp⟩
  | cons d cs ih =>
    intro conn a ha
    rw [List.foldl_cons] at ha
    obtain ⟨ha1, ha2⟩ := ih _ a ha
    rw [cipher_delete_keeps_attachments] at ha1
    obtain ⟨hb1, hb2⟩ := foldl_att_delete_mem _ conn a ha1
    refine ⟨hb1, fun c hc => ?_⟩
    rcases List.mem_cons.mp hc with rfl | hc
    · intro heq
      have hmem : a ∈ Attachment.find_by_cipher c.uuid conn := by
        unfold Attachment.find_by_cipher
        exact List.mem_filter.mpr ⟨hb1, by simp [heq]⟩
      exact hb2 a hmem rfl
    · exact ha2 c hc

theorem foldl_purge_folders (cs : List Cipher) :
    ∀ conn : DB,
      (cs.foldl (fun c cipher =>
        Cipher.delete cipher ((Attachment.find_by_cipher cipher.uuid c).foldl
          (fun c2 a => Attachment.delete a c2) c)) conn).folders = conn.folders := by
  induction cs with
  | nil => intro conn; rfl
  | cons d cs ih =>
    intro conn
    rw [List.foldl_cons, ih, cipher_delete_keeps_folders, foldl_att_delete_folders]

theorem foldl_folder_delete_mem (fs : List Folder) :
    ∀ (conn : DB) (f : Folder),
      f ∈ (fs.foldl (fun c x => Folder.delete x c) conn).folders →
      f ∈ conn.folders ∧ ∀ d ∈ fs, f.uuid ≠ d.uuid := by
  induction fs with
  | nil => intro conn f hf; exact ⟨hf, by simp⟩
  | cons d fs ih =>
    intro conn f hf
    rw [List.foldl_cons] at hf
    obtain ⟨hf1, hf2⟩ := ih _ f hf
    unfold Folder.delete at hf1
    dsimp only at hf1
    simp only [List.mem_filter, bne_iff_ne, ne_eq] at hf1
    refine ⟨hf1.1, fun c hc => ?_⟩
    rcases List.mem_cons.mp hc with rfl | hc
    · simpa using hf1.2
    · exact hf2 c hc

theorem foldl_folder_delete_ciphers (fs : List Folder) :
    ∀ conn : DB,
      (fs.foldl (fun c x => Folder.delete x c) conn).ciphers = conn.ciphers := by
  induction fs with
  | nil => intro conn; rfl
  | cons d fs ih => intro conn; rw [List.foldl_cons, ih, folder_delete_keeps_ciphers]

theorem foldl_folder_delete_attachments (fs : List Folder) :
    ∀ conn : DB,
      (fs.foldl (fun c x => Folder.delete x c) conn).attachments = conn.attachments := by
  induction fs with
  | nil => intro conn; rfl
  | cons d fs ih => intro conn; rw [List.foldl_cons, ih, folder_delete_keeps_attachments]

theorem update_invalid_type {data : CipherData}
    (cipher : Cipher) (headers : Headers) (conn : DB)
    (hf : data.folderId = none) (hfo : FieldsOk data)
    (h1 : data.type_ ≠ 1) (h2 : data.type_ ≠ 2) (h3 : data.type_ ≠ 3) (h4 : data.type_ ≠ 4) :
    (update_cipher_from_data cipher data headers conn).1 =
      .error (.badRequest "Invalid type") := by
  rw [update_none_folder cipher headers conn hf]
  obtain ⟨bv, hbv, -⟩ := buildValues_ok_of_FieldsOk hfo
  unfold updateAfterFolder
  simp only [hbv, typedPayloadChoice_invalid h1 h2 h3 h4]

theorem update_data_missing {data : CipherData}
    (cipher : Cipher) (headers : Headers) (conn : DB)
    (hf : data.folderId = none) (hfo : FieldsOk data)
    (htc : typedPayloadChoice data = .ok none) :
    (update_cipher_from_data cipher data headers conn).1 =
      .error (.badRequest "Data missing") := by
  rw [update_none_folder cipher headers conn hf]
  obtain ⟨bv, hbv, -⟩ := buildValues_ok_of_FieldsOk hfo
  unfold updateAfterFolder
  simp only [hbv, htc]

theorem post_ciphers_update_err {data : CipherData} {e : ApiErr}
    (headers : Headers) (conn : DB) (new_uuid : String)
    (h : (update_cipher_from_data
      (Cipher.new new_uuid headers.user.uuid data.type_ data.name data.favorite)
      data headers conn).1 = .error e) :
    post_ciphers data headers conn new_uuid = (.error e, conn) := by
  unfold post_ciphers
  dsimp only
  rcases hres : update_cipher_from_data
      (Cipher.new new_uuid headers.user.uuid data.type_ data.name data.favorite)
      data headers conn with ⟨r, c2⟩
  rw [hres] at h
  dsimp only at h
  subst h
  rfl

theorem put_cipher_folder_bad {data : CipherData} {fid : String}
    (uuid : String) (headers : Headers) (conn : DB)
    (hf : data.folderId = some fid)
    (hbad : ∀ folder, Folder.find_by_uuid fid conn = some folder →
      folder.user_uuid ≠ headers.user.uuid) :
    (put_cipher uuid data headers conn).2 = conn ∧
      ∃ msg, (put_cipher uuid data headers conn).1 = .error (.badRequest msg) := by
  unfold put_cipher
  rcases hfind : Cipher.find_by_uuid uuid conn with _ | cipher
  · exact ⟨rfl, "Cipher doesn't exist", rfl⟩
  · dsimp only
    by_cases hown : cipher.user_uuid = headers.user.uuid
    · rw [if_pos hown]
      rcases hff : Folder.find_by_uuid fid conn with _ | folder
      · rw [update_folder_missing { cipher with favorite := data.favorite } headers conn hf hff]
        exact ⟨rfl, "Folder doesn't exist", rfl⟩
      · rw [update_folder_not_owned { cipher with favorite := data.favorite } headers conn
          hf hff (hbad folder hff)]
        exact ⟨rfl, "Folder is not owned by user", rfl⟩
    · rw [if_neg hown]
      exact ⟨rfl, "Cipher is not owned by user", rfl⟩

theorem put_cipher_ok_inv {uuid : String} {data : CipherData} {headers : Headers}
    {conn : DB} {c' : Cipher}
    (h : (put_cipher uuid data headers conn).1 = .ok c') :
    ∃ old, Cipher.find_by_uuid uuid conn = some old ∧
      c'.notes = (if data.notes.isSome then data.notes else old.notes) ∧
      (data.fields = none → c'.fields = old.fields) ∧
      (∀ f, data.fields = some f → c'.fields = some (JVal.toString f)) ∧
      mergedDataString data = some c'.data ∧
      (put_cipher uuid data headers conn).2 = Cipher.save c' conn := by
  unfold put_cipher at h ⊢
  rcases hfind : Cipher.find_by_uuid uuid conn with _ | old
  · rw [hfind] at h
    simp at h
  · rw [hfind] at h
    dsimp only at h ⊢
    by_cases hown : old.user_uuid = headers.user.uuid
    · rw [if_pos hown] at h ⊢
      rcases hupd : update_cipher_from_data { old with favorite := data.favorite }
          data headers conn with ⟨r, c2⟩
      rcases r with e | u
      · rw [hupd] at h
        simp at h
      · cases u
        rw [hupd] at h
        dsimp only at h
        obtain ⟨-, -, -, -, hnotes, hfn, hfs, hmds⟩ := update_ok_inv hupd
        rw [Except.ok.injEq] at h
        subst h
        refine ⟨old, rfl, by simpa using hnotes, ?_, hfs, hmds, by rfl⟩
        intro hdf
        simpa using hfn hdf
    · rw [if_neg hown] at h; simp at h

theorem delete_all_ok (data : PasswordData) (headers : Headers) (conn : DB)
    (hpw : headers.user.check_valid_password data.masterPasswordHash = true) :
    ∃ db2, delete_all data headers conn = (.ok (), db2) ∧
      Cipher.find_by_user headers.user.uuid db2 = [] ∧
      Folder.find_by_user headers.user.uuid db2 = [] ∧
      ∀ a ∈ db2.attachments, ∀ c ∈ Cipher.find_by_user headers.user.uuid conn,
        a.cipher_uuid ≠ c.uuid := by
  have hcond : ¬((!headers.user.check_valid_password data.masterPasswordHash) = true) := by
    rw [hpw]; simp
  unfold delete_all
  rw [if_neg hcond]
  dsimp only
  refine ⟨_, rfl, ?_, ?_, ?_⟩
  · refine List.eq_nil_iff_forall_not_mem.mpr fun x hx => ?_
    unfold Cipher.find_by_user at hx
    obtain ⟨hx1, hx2⟩ := List.mem_filter.mp hx
    rw [foldl_folder_delete_ciphers] at hx1
    obtain ⟨hm, hnd⟩ := foldl_purge_ciphers_mem _ _ _ hx1
    rw [beq_iff_eq] at hx2
    exact hnd x (List.mem_filter.mpr ⟨hm, by simp [hx2]⟩) rfl
  · refine List.eq_nil_iff_forall_not_mem.mpr fun f hf => ?_
    unfold Folder.find_by_user at hf
    obtain ⟨hf1, hf2⟩ := List.mem_filter.mp hf
    obtain ⟨hm, hnd⟩ := foldl_folder_delete_mem _ _ _ hf1
    rw [beq_iff_eq] at hf2
    exact hnd f (List.mem_filter.mpr ⟨hm, by simp [hf2]⟩) rfl
  · intro a ha c hc
    rw [foldl_folder_delete_attachments] at ha
    obtain ⟨-, hnd⟩ := foldl_purge_attachments_mem _ _ _ ha
    exact hnd c hc

theorem post_attachment_ok (uuid : String) (body : MultipartBody)
    (ctParams : List (String × String)) (headers : Headers) (conn : DB)
    (rng : Nat → List Nat) (cipher : Cipher)
    (hfind : Cipher.find_by_uuid uuid conn = some cipher)
    (hown : cipher.user_uuid = headers.user.uuid)
    (hct : ctParams ≠ [])
    (hwell : body.after_error = none)
    (hfn : ∀ p ∈ body.parts, p.filename.isSome)
    (hnd : ((List.range body.parts.length).map (fun j => hexLower (rng j))).Nodup)
    (hfresh : ∀ j, j < body.parts.length →
      hexLower (rng j) ∉ conn.attachments.map Attachment.id) :
    post_attachment uuid body ctParams headers conn rng =
      (.ok cipher, { conn with attachments :=
        conn.attachments ++ spec_attachment_rows cipher.uuid rng body.parts 0 }) := by
  unfold post_attachment
  rw [hfind]
  dsimp only
  rw [if_pos hown]
  rcases ctParams with _ | ⟨bp, ps⟩
  · exact absurd rfl hct
  · dsimp only
    rw [attachLoop_ok cipher rng body.parts 0 conn hfn (by simpa using hnd)
      (by simpa using hfresh)]
    dsimp only
    rw [hwell]

/-- C1 counterexample: a write request whose discriminant is 1 and whose
login payload is a present JSON object, but which also carries a dangling
folder id. update_cipher_from_data fails instead of succeeding, so the
claim as stated is false: presence of a valid typed payload is not
sufficient for the merge to succeed. -/
theorem c1_counterexample :
    loginDataBadFolder.type_ = 1 ∧
      loginDataBadFolder.login = some (JVal.obj [("password", JVal.str "p"),
        ("username", JVal.str "alice")]) ∧
      (update_cipher_from_data (Cipher.new "new-c" "u1" 1 "item-name" false)
        loginDataBadFolder headers0 db1).1 =
        .error (.badRequest "Folder doesn't exist") :=
  ⟨rfl, rfl, by rfl⟩

/-- C1 (amended): for every cipher-create or cipher-update request whose
type discriminant selects a typed payload that is present and is a JSON
object, provided the request passes the folder step (no folder id is
supplied), its fields value cannot panic (absent or an array), and no two
payload keys coincide after first-character upper-casing,
update_cipher_from_data succeeds and the serialized payload stored in the
data field is a JSON object whose key set is exactly Name, Notes, Fields
unioned with the upper-cased payload keys (payload entries overwriting
colliding envelope keys), with each typed-payload value copied verbatim. -/
theorem c1_payload_shape (cipher : Cipher) (data : CipherData) (headers : Headers)
    (conn : DB) (kvs : List (String × JVal))
    (hfold : data.folderId = none)
    (hfields : FieldsOk data)
    (hpay : typedPayloadChoice data = .ok (some (JVal.obj kvs)))
    (hnd : (kvs.map (fun p => upcase_first p.1)).Nodup) :
    (update_cipher_from_data cipher data headers conn).1 = .ok () ∧
      ∃ out, (update_cipher_from_data cipher data headers conn).2.data =
          JVal.toString (JVal.obj out) ∧
        (∀ k, k ∈ objKeys out ↔
          k = "Name" ∨ k = "Notes" ∨ k = "Fields" ∨ ∃ p ∈ kvs, upcase_first p.1 = k) ∧
        (∀ p ∈ kvs, objLookup (upcase_first p.1) out = some p.2) := by
  obtain ⟨bv, hbv, hkeys, heq⟩ := updateAfterFolder_ok cipher hfields hpay
  rw [update_none_folder cipher headers conn hfold, heq]
  refine ⟨rfl, copyFold kvs bv, by simp, ?_, ?_⟩
  · intro k
    rw [mem_objKeys_copyFold, hkeys k]
    tauto
  · intro p hp
    exact objLookup_copyFold_self kvs bv hnd p hp

/-- C1 witness: the amended statement at a concrete login write with two
payload entries. -/
theorem c1_payload_shape_witness :
    loginData.folderId = none ∧ FieldsOk loginData ∧
      typedPayloadChoice loginData =
        .ok (some (JVal.obj [("password", JVal.str "p"), ("username", JVal.str "alice")])) ∧
      (([("password", JVal.str "p"), ("username", JVal.str "alice")].map
        (fun p : String × JVal => upcase_first p.1)).Nodup) ∧
      ((update_cipher_from_data storedCipher loginData headers0 db0).1 = .ok () ∧
        ∃ out, (update_cipher_from_data storedCipher loginData headers0 db0).2.data =
            JVal.toString (JVal.obj out) ∧
          (∀ k, k ∈ objKeys out ↔
            k = "Name" ∨ k = "Notes" ∨ k = "Fields" ∨
              ∃ p ∈ [("password", JVal.str "p"), ("username", JVal.str "alice")],
                upcase_first p.1 = k) ∧
          (∀ p ∈ [("password", JVal.str "p"), ("username", JVal.str "alice")],
            objLookup (upcase_first p.1) out = some p.2)) :=
  ⟨rfl, Or.inl rfl, rfl, by decide,
    c1_payload_shape storedCipher loginData headers0 db0
      [("password", JVal.str "p"), ("username", JVal.str "alice")]
      rfl (Or.inl rfl) rfl (by decide)⟩

/-- C2 counterexample: a create request whose discriminant 7 is outside
the valid range but which also carries a dangling folder id fails with
the folder error, not with Invalid type, because the folder check runs
first; the claim as stated is therefore false. -/
theorem c2_counterexample :
    badTypeBadFolderData.type_ = 7 ∧
      post_ciphers badTypeBadFolderData headers0 db1 "new-c" =
        (.error (.badRequest "Folder doesn't exist"), db1) :=
  ⟨rfl, by rfl⟩

/-- C2 (amended): for every cipher-create request that supplies no folder
id and whose fields value cannot panic: a discriminant outside 1..4 fails
with the Invalid type error, a discriminant inside 1..4 whose matching
typed payload is absent fails with the Data missing error, and in both
cases the store is returned unchanged (save is never called). -/
theorem c2_create_validation (data : CipherData) (headers : Headers)
    (conn : DB) (new_uuid : String)
    (hfold : data.folderId = none) (hfields : FieldsOk data) :
    ((data.type_ ≠ 1 ∧ data.type_ ≠ 2 ∧ data.type_ ≠ 3 ∧ data.type_ ≠ 4) →
      post_ciphers data headers conn new_uuid =
        (.error (.badRequest "Invalid type"), conn)) ∧
    (typedPayloadChoice data = .ok none →
      post_ciphers data headers conn new_uuid =
        (.error (.badRequest "Data missing"), conn)) := by
  constructor
  · rintro ⟨h1, h2, h3, h4⟩
    exact post_ciphers_update_err headers conn new_uuid
      (update_invalid_type _ headers conn hfold hfields h1 h2 h3 h4)
  · intro htc
    exact post_ciphers_update_err headers conn new_uuid
      (update_data_missing _ headers conn hfold hfields htc)

/-- C2 witness: the amended statement at a discriminant-7 request and at
a login request with no login payload. -/
theorem c2_create_validation_witness :
    (badTypeData.folderId = none ∧ FieldsOk badTypeData ∧
      badTypeData.type_ ≠ 1 ∧ badTypeData.type_ ≠ 2 ∧ badTypeData.type_ ≠ 3 ∧
      badTypeData.type_ ≠ 4 ∧
      post_ciphers badTypeData headers0 db0 "new-c" =
        (.error (.badRequest "Invalid type"), db0)) ∧
    (missingPayloadData.folderId = none ∧ FieldsOk missingPayloadData ∧
      typedPayloadChoice missingPayloadData = .ok none ∧
      post_ciphers missingPayloadData headers0 db0 "new-c" =
        (.error (.badRequest "Data missing"), db0)) :=
  ⟨⟨rfl, Or.inl rfl, by decide, by decide, by decide, by decide,
    (c2_create_validation badTypeData headers0 db0 "new-c" rfl (Or.inl rfl)).1
      ⟨by decide, by decide, by decide, by decide⟩⟩,
   ⟨rfl, Or.inl rfl, rfl,
    (c2_create_validation missingPayloadData headers0 db0 "new-c" rfl (Or.inl rfl)).2 rfl⟩⟩

/-- C3: a cipher write that supplies a folder id fails with "Folder
doesn't exist" when the folder resolves to nothing and with "Folder is
not owned by user" when it belongs to another user; the folder check
runs before update_cipher_from_data mutates any field of the target
cipher (the cipher accompanying the error is the input unchanged), and
on a put through put_cipher the store is returned unchanged, so the
stored cipher is untouched by the failed attempt. -/
theorem c3_folder_validation :
    (∀ (cipher : Cipher) (data : CipherData) (headers : Headers) (conn : DB) (fid : String),
      data.folderId = some fid → Folder.find_by_uuid fid conn = none →
      update_cipher_from_data cipher data headers conn =
        (.error (.badRequest "Folder doesn't exist"), cipher)) ∧
    (∀ (cipher : Cipher) (data : CipherData) (headers : Headers) (conn : DB) (fid : String)
      (folder : Folder),
      data.folderId = some fid → Folder.find_by_uuid fid conn = some folder →
      folder.user_uuid ≠ headers.user.uuid →
      update_cipher_from_data cipher data headers conn =
        (.error (.badRequest "Folder is not owned by user"), cipher)) ∧
    (∀ (uuid : String) (data : CipherData) (headers : Headers) (conn : DB) (fid : String),
      data.folderId = some fid →
      (∀ folder, Folder.find_by_uuid fid conn = some folder →
        folder.user_uuid ≠ headers.user.uuid) →
      (put_cipher uuid data headers conn).2 = conn ∧
        ∃ msg, (put_cipher uuid data headers conn).1 = .error (.badRequest msg)) :=
  ⟨fun cipher _data headers conn _fid hf hfind =>
      update_folder_missing cipher headers conn hf hfind,
   fun cipher _data headers conn _fid _folder hf hfind hown =>
      update_folder_not_owned cipher headers conn hf hfind hown,
   fun uuid _data headers conn _fid hf hbad => put_cipher_folder_bad uuid headers conn hf hbad⟩

/-- C3 witness: the three conjuncts at concrete stores — a dangling
folder id, the other user's folder, and a put on an existing owned
cipher with a dangling folder id that leaves the store unchanged. -/
theorem c3_folder_validation_witness :
    (loginDataBadFolder.folderId = some "no-such-folder" ∧
      Folder.find_by_uuid "no-such-folder" db1 = none ∧
      update_cipher_from_data storedCipher loginDataBadFolder headers0 db1 =
        (.error (.badRequest "Folder doesn't exist"), storedCipher)) ∧
    (loginDataForeignFolder.folderId = some "fld-other" ∧
      Folder.find_by_uuid "fld-other" db1 = some foreignFolder ∧
      foreignFolder.user_uuid ≠ headers0.user.uuid ∧
      update_cipher_from_data storedCipher loginDataForeignFolder headers0 db1 =
        (.error (.badRequest "Folder is not owned by user"), storedCipher)) ∧
    ((put_cipher "c1" loginDataBadFolder headers0 db1).2 = db1 ∧
      ∃ msg, (put_cipher "c1" loginDataBadFolder headers0 db1).1 =
        .error (.badRequest msg)) :=
  ⟨⟨rfl, rfl, c3_folder_validation.1 storedCipher loginDataBadFolder headers0 db1
      "no-such-folder" rfl rfl⟩,
   ⟨rfl, rfl, by decide, c3_folder_validation.2.1 storedCipher loginDataForeignFolder headers0
      db1 "fld-other" foreignFolder rfl rfl (by decide)⟩,
   c3_folder_validation.2.2 "c1" loginDataBadFolder headers0 db1 "no-such-folder" rfl
     (fun folder hfolder => by
       have hnone : Folder.find_by_uuid "no-such-folder" db1 = none := by rfl
       rw [hnone] at hfolder
       cases hfolder)⟩

/-- C4: on a successful import, the relationship list is folded into a
map with last write winning on duplicate keys, and the cipher at 0-based
position i is persisted with the uuid of the created folder at position
m(i) when i is a key of the map (the i-th created folder's uuid being
the i-th generated uuid), and with a null folder reference otherwise. -/
theorem c4_import_folder_assignment (data : ImportData) (headers : Headers) (conn : DB)
    (su : Nat → String)
    (hok : ∀ cd ∈ data.ciphers, CipherDataOk cd)
    (hrange : ∀ j, j < data.ciphers.length →
      ∀ v, mapGet j (buildRelMap data.folderRelationships) = some v →
        v < data.folders.length)
    (hfreshF : ∀ k, k < data.folders.length → su k ∉ conn.folders.map Folder.uuid)
    (hinjF : ∀ a, a < data.folders.length → ∀ b, b < data.folders.length → a ≠ b →
      su a ≠ su b)
    (hfreshC : ∀ j, j < data.ciphers.length →
      su (data.folders.length + j) ∉ conn.ciphers.map Cipher.uuid)
    (hinjC : ∀ j1, j1 < data.ciphers.length → ∀ j2, j2 < data.ciphers.length → j1 ≠ j2 →
      su (data.folders.length + j1) ≠ su (data.folders.length + j2)) :
    (post_ciphers_import data headers conn su).1 = .ok () ∧
      (∀ k, mapGet k (buildRelMap data.folderRelationships) =
        lastValue k data.folderRelationships) ∧
      ∃ created, (post_ciphers_import data headers conn su).2.ciphers =
          conn.ciphers ++ created ∧
        created.length = data.ciphers.length ∧
        ∀ j, j < data.ciphers.length → ∃ cj, created[j]? = some cj ∧
          cj.folder_uuid = (mapGet j (buildRelMap data.folderRelationships)).map
            (fun v => su v) ∧
          cj.user_uuid = headers.user.uuid := by
  rw [post_ciphers_import_eq data headers conn su hfreshF (fun a b ha hb => hinjF a ha b hb)]
  obtain ⟨created, hloop, hlen, hprops⟩ :=
    impLoop_ok_append headers su data.folders.length
      (mkImportFolders su headers.user.uuid data.folders 0)
      (buildRelMap data.folderRelationships) data.ciphers 0
      { conn with folders :=
          conn.folders ++ mkImportFolders su headers.user.uuid data.folders 0 }
      hok
      (fun j hj v hv => by
        rw [mkImportFolders_length]
        exact hrange j hj v (by simpa using hv))
      (fun j hj => by simpa using hfreshC j hj)
      (fun j1 j2 h1 h2 hne => by simpa using hinjC j1 h1 j2 h2 hne)
  rw [hloop]
  refine ⟨rfl, fun k => mapGet_buildRelMap _ k, created, by simp, hlen, ?_⟩
  intro j hj
  obtain ⟨cj, hcj, -, huser, hfold, -⟩ := hprops j hj
  refine ⟨cj, hcj, ?_, huser⟩
  rw [hfold, Nat.zero_add]
  rcases hm : mapGet j (buildRelMap data.folderRelationships) with _ | v
  · rfl
  · have hv : v < data.folders.length := hrange j hj v hm
    have hfv := mkImportFolders_getElem su headers.user.uuid data.folders 0 v
    simp [hfv, List.getElem?_eq_getElem hv, Folder.new]

/-- C4 witness: the amended statement at the concrete scenario of the
claim — folders F0 and F1, three ciphers, relationships mapping cipher 0
to folder 1 and cipher 2 to folder 0. -/
theorem c4_import_folder_assignment_witness :
    (∀ cd ∈ importData4.ciphers, CipherDataOk cd) ∧
      (∀ j, j < importData4.ciphers.length →
        ∀ v, mapGet j (buildRelMap importData4.folderRelationships) = some v →
          v < importData4.folders.length) ∧
      ((post_ciphers_import importData4 headers0 db0 su0).1 = .ok () ∧
        (∀ k, mapGet k (buildRelMap importData4.folderRelationships) =
          lastValue k importData4.folderRelationships) ∧
        ∃ created, (post_ciphers_import importData4 headers0 db0 su0).2.ciphers =
            db0.ciphers ++ created ∧
          created.length = importData4.ciphers.length ∧
          ∀ j, j < importData4.ciphers.length → ∃ cj, created[j]? = some cj ∧
            cj.folder_uuid = (mapGet j (buildRelMap importData4.folderRelationships)).map
              (fun v => su0 v) ∧
            cj.user_uuid = headers0.user.uuid) :=
  ⟨fun cd hcd => by
      simp only [importData4, List.mem_cons, List.not_mem_nil, or_false] at hcd
      rcases hcd with rfl | rfl | rfl <;> exact ⟨rfl, Or.inl rfl, [], rfl⟩,
   fun j hj v hv => by
      simp [importData4] at hj ⊢
      interval_cases j <;>
        simp [importData4, buildRelMap, mapInsert, mapGet] at hv <;>
        omega,
   c4_import_folder_assignment importData4 headers0 db0 su0
     (fun cd hcd => by
       simp only [importData4, List.mem_cons, List.not_mem_nil, or_false] at hcd
       rcases hcd with rfl | rfl | rfl <;> exact ⟨rfl, Or.inl rfl, [], rfl⟩)
     (fun j hj v hv => by
       simp [importData4] at hj ⊢
       interval_cases j <;>
         simp [importData4, buildRelMap, mapInsert, mapGet] at hv <;>
         omega)
     (fun k hk => by simp [db0])
     (by decide)
     (fun j hj => by simp [db0])
     (by decide)⟩

/-- C5: when the merge of the cipher at position k of an import fails
(all earlier merges succeeding and all relationship lookups up to k in
range), the import aborts with the generic "Error creating cipher"
failure; every folder of the request has already been persisted and
exactly the ciphers before position k have been persisted — there is no
rollback — while the cipher at k and all later ciphers are not. -/
theorem c5_import_abort (data : ImportData) (headers : Headers) (conn : DB)
    (su : Nat → String) (pre : List CipherData) (bad : CipherData) (rest : List CipherData)
    (hsplit : data.ciphers = pre ++ bad :: rest)
    (hok : ∀ cd ∈ pre, CipherDataOk cd) (hbad : MergeFails bad)
    (hrange : ∀ j, j ≤ pre.length →
      ∀ v, mapGet j (buildRelMap data.folderRelationships) = some v →
        v < data.folders.length)
    (hfreshF : ∀ k, k < data.folders.length → su k ∉ conn.folders.map Folder.uuid)
    (hinjF : ∀ a, a < data.folders.length → ∀ b, b < data.folders.length → a ≠ b →
      su a ≠ su b)
    (hfreshC : ∀ j, j < pre.length →
      su (data.folders.length + j) ∉ conn.ciphers.map Cipher.uuid)
    (hinjC : ∀ j1, j1 < pre.length → ∀ j2, j2 < pre.length → j1 ≠ j2 →
      su (data.folders.length + j1) ≠ su (data.folders.length + j2)) :
    (post_ciphers_import data headers conn su).1 =
        .error (.badRequest "Error creating cipher") ∧
      (post_ciphers_import data headers conn su).2.folders =
        conn.folders ++ mkImportFolders su headers.user.uuid data.folders 0 ∧
      ∃ created, (post_ciphers_import data headers conn su).2.ciphers =
          conn.ciphers ++ created ∧
        created.length = pre.length ∧
        ∀ j, j < pre.length → ∃ cj, created[j]? = some cj ∧
          cj.uuid = su (data.folders.length + j) := by
  rw [post_ciphers_import_eq data headers conn su hfreshF (fun a b ha hb => hinjF a ha b hb),
    hsplit]
  obtain ⟨created, hloop, hlen, hprops⟩ :=
    impLoop_fail_append headers su data.folders.length
      (mkImportFolders su headers.user.uuid data.folders 0)
      (buildRelMap data.folderRelationships) pre bad rest 0
      { conn with folders :=
          conn.folders ++ mkImportFolders su headers.user.uuid data.folders 0 }
      hok hbad
      (fun j hj v hv => by
        rw [mkImportFolders_length]
        exact hrange j hj v (by simpa using hv))
      (fun j hj => by simpa using hfreshC j hj)
      (fun j1 j2 h1 h2 hne => by simpa using hinjC j1 h1 j2 h2 hne)
  rw [hloop]
  refine ⟨rfl, by simp, created, by simp, hlen, ?_⟩
  intro j hj
  obtain ⟨cj, hcj, hu⟩ := hprops j hj
  exact ⟨cj, hcj, by simpa using hu⟩

/-- C5 witness: an import of three ciphers whose second cipher carries
no typed payload; the folder and the first cipher are persisted, the
second and third are not. -/
theorem c5_import_abort_witness :
    importData5.ciphers = [noteData] ++ missingPayloadData :: [noteData] ∧
      (∀ cd ∈ [noteData], CipherDataOk cd) ∧ MergeFails missingPayloadData ∧
      ((post_ciphers_import importData5 headers0 db0 su0).1 =
          .error (.badRequest "Error creating cipher") ∧
        (post_ciphers_import importData5 headers0 db0 su0).2.folders =
          db0.folders ++ mkImportFolders su0 headers0.user.uuid importData5.folders 0 ∧
        ∃ created, (post_ciphers_import importData5 headers0 db0 su0).2.ciphers =
            db0.ciphers ++ created ∧
          created.length = ([noteData] : List CipherData).length ∧
          ∀ j, j < ([noteData] : List CipherData).length → ∃ cj, created[j]? = some cj ∧
            cj.uuid = su0 (importData5.folders.length + j)) :=
  ⟨rfl,
   fun cd hcd => by
     simp only [List.mem_singleton] at hcd
     subst hcd
     exact ⟨rfl, Or.inl rfl, [], rfl⟩,
   ⟨rfl, Or.inl rfl, fun kvs h => by
     simp only [typedPayloadChoice, missingPayloadData, baseData] at h
     cases h⟩,
   c5_import_abort importData5 headers0 db0 su0 [noteData] missingPayloadData [noteData]
     rfl
     (fun cd hcd => by
       simp only [List.mem_singleton] at hcd
       subst hcd
       exact ⟨rfl, Or.inl rfl, [], rfl⟩)
     ⟨rfl, Or.inl rfl, fun kvs h => by
       simp only [typedPayloadChoice, missingPayloadData, baseData] at h
       cases h⟩
     (fun j hj v hv => by
       simp only [importData5, buildRelMap, List.foldl_nil, mapGet] at hv
       exact Option.noConfusion hv)
     (fun k hk => by simp [db0])
     (by decide)
     (fun j hj => by simp [db0])
     (by decide)⟩

/-- C10: an import reaching a relationship whose folder index is at
least the number of request folders performs an out-of-bounds vector
index — a panic — rather than returning a structured error; the
operation avoids the panic only when every applicable relationship's
folder index is below the folder count. -/
theorem c10_import_oob_panics (data : ImportData) (headers : Headers) (conn : DB)
    (su : Nat → String) (j0 v : Nat)
    (hok : ∀ cd ∈ data.ciphers, CipherDataOk cd)
    (hj0 : j0 < data.ciphers.length)
    (hm : mapGet j0 (buildRelMap data.folderRelationships) = some v)
    (hv : data.folders.length ≤ v)
    (hmin : ∀ j, j < j0 → ∀ w, mapGet j (buildRelMap data.folderRelationships) = some w →
      w < data.folders.length)
    (hfreshF : ∀ k, k < data.folders.length → su k ∉ conn.folders.map Folder.uuid)
    (hinjF : ∀ a, a < data.folders.length → ∀ b, b < data.folders.length → a ≠ b →
      su a ≠ su b) :
    (post_ciphers_import data headers conn su).1 = .error (.panic "index out of bounds") := by
  rw [post_ciphers_import_eq data headers conn su hfreshF (fun a b ha hb => hinjF a ha b hb)]
  refine impLoop_panic_at headers su data.folders.length
    (mkImportFolders su headers.user.uuid data.folders 0)
    (buildRelMap data.folderRelationships) data.ciphers j0 v 0 _ hok hj0
    (by simpa using hm) (by rw [mkImportFolders_length]; exact hv) ?_
  intro j hj w hw
  rw [mkImportFolders_length]
  exact hmin j hj w (by simpa using hw)

/-- C10 witness: an import with one folder and a relationship pointing
its only cipher at folder index 5 panics. -/
theorem c10_import_oob_panics_witness :
    (∀ cd ∈ importData10.ciphers, CipherDataOk cd) ∧
      mapGet 0 (buildRelMap importData10.folderRelationships) = some 5 ∧
      importData10.folders.length ≤ 5 ∧
      (post_ciphers_import importData10 headers0 db0 su0).1 =
        .error (.panic "index out of bounds") :=
  ⟨fun cd hcd => by
      simp only [importData10, List.mem_singleton] at hcd
      subst hcd
      exact ⟨rfl, Or.inl rfl, [], rfl⟩,
   by rfl, by decide,
   c10_import_oob_panics importData10 headers0 db0 su0 0 5
     (fun cd hcd => by
       simp only [importData10, List.mem_singleton] at hcd
       subst hcd
       exact ⟨rfl, Or.inl rfl, [], rfl⟩)
     (by decide) (by rfl) (by decide)
     (fun j hj => absurd hj (Nat.not_lt_zero j))
     (fun k hk => by simp [db0])
     (by decide)⟩

theorem hexLower_length (bs : List Nat) : (hexLower bs).length = 2 * bs.length := by
  have hfold : ∀ l : List Nat,
      (l.foldr (fun b acc => hexNibble (b / 16 % 16) :: hexNibble (b % 16) :: acc) []).length =
        2 * l.length := by
    intro l
    induction l with
    | nil => rfl
    | cons b l ih =>
      simp only [List.foldr_cons, List.length_cons, ih]
      omega
  unfold hexLower
  show (bs.foldr (fun b acc => hexNibble (b / 16 % 16) :: hexNibble (b % 16) :: acc) []).length
    = 2 * bs.length
  exact hfold bs

theorem spec_attachment_rows_mem (cu : String) (rng : Nat → List Nat) :
    ∀ (parts : List UploadPart) (i : Nat) (a : Attachment),
      a ∈ spec_attachment_rows cu rng parts i →
      a.cipher_uuid = cu ∧ ∃ t, a.id = hexLower (rng t) := by
  intro parts
  induction parts with
  | nil => intro i a ha; cases ha
  | cons p rest ih =>
    intro i a ha
    rcases hout : p.save_outcome with size | _
    · rw [spec_attachment_rows, hout] at ha
      rcases List.mem_cons.mp ha with rfl | ha
      · exact ⟨rfl, i, rfl⟩
      · exact ih (i + 1) a ha
    · rw [spec_attachment_rows, hout] at ha
      exact ih (i + 1) a ha

/-- C6 counterexample: a single file part whose save reports 2^31 bytes
produces an attachment row whose stored size is the wrapped value
-2147483648, not the observed byte count, so the claim as stated is
false. -/
theorem c6_counterexample :
    (post_attachment "c1" hugePartBody boundaryParams headers0 db6 rng0).2.attachments =
        [Attachment.new "00000000000000000000" "c1" "big.bin" (-2147483648)] ∧
      (-2147483648 : Int) ≠ 2 ^ 31 :=
  ⟨by rfl, by decide⟩

/-- C6 (amended): over an owned cipher, with a parsable multipart body
whose parts all carry filenames and with the generated storage names
pairwise fresh, each file part is handled independently: a part whose
save fails produces no attachment row and no surfaced error while later
parts proceed, and a part whose save succeeds produces exactly one row
recording the lower-hex encoding of the generated random bytes (ten per
part), the client-declared display name, and the observed byte count
wrapped to a signed 32-bit integer; the overall request succeeds. -/
theorem c6_upload_best_effort (uuid : String) (body : MultipartBody)
    (ctParams : List (String × String)) (headers : Headers) (conn : DB)
    (rng : Nat → List Nat) (cipher : Cipher)
    (hfind : Cipher.find_by_uuid uuid conn = some cipher)
    (hown : cipher.user_uuid = headers.user.uuid)
    (hct : ctParams ≠ [])
    (hwell : body.after_error = none)
    (hfn : ∀ p ∈ body.parts, p.filename.isSome)
    (hnd : ((List.range body.parts.length).map (fun j => hexLower (rng j))).Nodup)
    (hfresh : ∀ j, j < body.parts.length →
      hexLower (rng j) ∉ conn.attachments.map Attachment.id)
    (hlen10 : ∀ t, (rng t).length = 10) :
    post_attachment uuid body ctParams headers conn rng =
      (.ok cipher, { conn with attachments :=
        conn.attachments ++ spec_attachment_rows cipher.uuid rng body.parts 0 }) ∧
    ∀ a ∈ spec_attachment_rows cipher.uuid rng body.parts 0,
      a.cipher_uuid = cipher.uuid ∧ a.id.length = 20 := by
  refine ⟨post_attachment_ok uuid body ctParams headers conn rng cipher hfind hown hct
    hwell hfn hnd hfresh, ?_⟩
  intro a ha
  obtain ⟨hcu, t, hid⟩ := spec_attachment_rows_mem cipher.uuid rng body.parts 0 a ha
  refine ⟨hcu, ?_⟩
  rw [hid, hexLower_length, hlen10]

/-- C6 witness: two file parts where the first save fails and the second
saves five bytes; exactly one attachment row results and the request
succeeds. -/
theorem c6_upload_best_effort_witness :
    spec_attachment_rows "c1" rng0 twoPartBody.parts 0 =
        [Attachment.new "01010101010101010101" "c1" "b.txt" 5] ∧
      (post_attachment "c1" twoPartBody boundaryParams headers0 db6 rng0 =
        (.ok plainCipher, { db6 with attachments :=
          db6.attachments ++ spec_attachment_rows plainCipher.uuid rng0 twoPartBody.parts 0 }) ∧
      ∀ a ∈ spec_attachment_rows plainCipher.uuid rng0 twoPartBody.parts 0,
        a.cipher_uuid = plainCipher.uuid ∧ a.id.length = 20) :=
  ⟨by rfl,
   c6_upload_best_effort "c1" twoPartBody boundaryParams headers0 db6 rng0 plainCipher
     rfl rfl (by decide) rfl
     (fun p hp => by
       simp only [twoPartBody, List.mem_cons, List.not_mem_nil, or_false] at hp
       rcases hp with rfl | rfl <;> rfl)
     (by decide)
     (fun j hj => by simp [db6])
     (fun t => by simp [rng0])⟩

/-- C7: purge-all with a failing master-password re-verification fails
with the Invalid password error before any deletion, returning the store
unchanged; with a passing re-verification it leaves the user with zero
ciphers, zero folders, and no attachment belonging to any cipher the
user owned. -/
theorem c7_purge_all :
    (∀ (data : PasswordData) (headers : Headers) (conn : DB),
      headers.user.check_valid_password data.masterPasswordHash = false →
      delete_all data headers conn = (.error (.badRequest "Invalid password"), conn)) ∧
    (∀ (data : PasswordData) (headers : Headers) (conn : DB),
      headers.user.check_valid_password data.masterPasswordHash = true →
      ∃ db2, delete_all data headers conn = (.ok (), db2) ∧
        Cipher.find_by_user headers.user.uuid db2 = [] ∧
        Folder.find_by_user headers.user.uuid db2 = [] ∧
        ∀ a ∈ db2.attachments, ∀ c ∈ Cipher.find_by_user headers.user.uuid conn,
          a.cipher_uuid ≠ c.uuid) := by
  constructor
  · intro data headers conn hpw
    unfold delete_all
    rw [if_pos (by rw [hpw]; rfl)]
  · intro data headers conn hpw
    exact delete_all_ok data headers conn hpw

/-- C7 witness: the purge at a concrete store holding two of the user's
ciphers, one attachment of theirs, another user's cipher and attachment,
and one folder per user. -/
theorem c7_purge_all_witness :
    (headers0.user.check_valid_password "wrong" = false ∧
      delete_all { masterPasswordHash := "wrong" } headers0 db7 =
        (.error (.badRequest "Invalid password"), db7)) ∧
    (headers0.user.check_valid_password "hash1" = true ∧
      ∃ db2, delete_all { masterPasswordHash := "hash1" } headers0 db7 = (.ok (), db2) ∧
        Cipher.find_by_user headers0.user.uuid db2 = [] ∧
        Folder.find_by_user headers0.user.uuid db2 = [] ∧
        ∀ a ∈ db2.attachments, ∀ c ∈ Cipher.find_by_user headers0.user.uuid db7,
          a.cipher_uuid ≠ c.uuid) :=
  ⟨⟨rfl, c7_purge_all.1 { masterPasswordHash := "wrong" } headers0 db7 rfl⟩,
   ⟨rfl, c7_purge_all.2 { masterPasswordHash := "hash1" } headers0 db7 rfl⟩⟩

/-- C8 counterexample: an update whose request carries no notes value
succeeds and leaves the stored cipher with its previous notes
"old-notes" rather than with no notes, so the claim as stated is
false. -/
theorem c8_counterexample :
    noteData.notes = none ∧
      ((put_cipher "c1" noteData headers0 db8).1.map Cipher.notes) =
        .ok (some "old-notes") :=
  ⟨rfl, by rfl⟩

/-- C8 (amended): on a successful put of an existing cipher, the notes
column and the custom-fields serialization are replaced only when the
request supplies them and retained otherwise — in particular an update
with absent notes retains the previous notes — while the typed payload
stored in the data column is always fully replaced, being determined by
the request alone. -/
theorem c8_update_replacement (uuid : String) (data : CipherData) (headers : Headers)
    (conn : DB) (c' : Cipher)
    (h : (put_cipher uuid data headers conn).1 = .ok c') :
    ∃ old, Cipher.find_by_uuid uuid conn = some old ∧
      c'.notes = (if data.notes.isSome then data.notes else old.notes) ∧
      (data.fields = none → c'.fields = old.fields) ∧
      (∀ f, data.fields = some f → c'.fields = some (JVal.toString f)) ∧
      mergedDataString data = some c'.data := by
  obtain ⟨old, h1, h2, h3, h4, h5, -⟩ := put_cipher_ok_inv h
  exact ⟨old, h1, h2, h3, h4, h5⟩

/-- C8 witness: the amended statement at the concrete notes-retention
scenario. -/
theorem c8_update_replacement_witness :
    ∃ c', (put_cipher "c1" noteData headers0 db8).1 = .ok c' ∧
      ∃ old, Cipher.find_by_uuid "c1" db8 = some old ∧
        c'.notes = (if noteData.notes.isSome then noteData.notes else old.notes) ∧
        (noteData.fields = none → c'.fields = old.fields) ∧
        (∀ f, noteData.fields = some f → c'.fields = some (JVal.toString f)) ∧
        mergedDataString noteData = some c'.data := by
  have hok : ∃ c', (put_cipher "c1" noteData headers0 db8).1 = .ok c' := by
    rcases hres : (put_cipher "c1" noteData headers0 db8).1 with e | c'
    · have hcomp : (put_cipher "c1" noteData headers0 db8).1.map Cipher.notes =
          .ok (some "old-notes") := by rfl
      rw [hres] at hcomp
      cases hcomp
    · exact ⟨c', rfl⟩
  obtain ⟨c', hres⟩ := hok
  exact ⟨c', hres, c8_update_replacement "c1" noteData headers0 db8 c' hres⟩

/-- C9 counterexample: an attachment upload over an owned cipher whose
content type carries no parameters panics with "No boundary provided"
instead of returning a structured bad-request error, so the claim as
stated is false. -/
theorem c9_counterexample :
    post_attachment "c1" emptyBody [] headers0 db6 rng0 =
      (.error (.panic "No boundary provided"), db6) := by
  rfl

/-- C9 (amended): over an owned cipher, an upload whose content type
carries no parameter terminates in the "No boundary provided" panic
with the store unchanged, and an upload whose multipart stream is
malformed terminates in a panic as well — neither failure surfaces as a
structured bad-request error. -/
theorem c9_multipart_panics :
    (∀ (uuid : String) (body : MultipartBody) (headers : Headers) (conn : DB)
      (rng : Nat → List Nat) (cipher : Cipher),
      Cipher.find_by_uuid uuid conn = some cipher →
      cipher.user_uuid = headers.user.uuid →
      post_attachment uuid body [] headers conn rng =
        (.error (.panic "No boundary provided"), conn)) ∧
    (∀ (uuid : String) (body : MultipartBody) (bp : String × String)
      (ps : List (String × String)) (headers : Headers) (conn : DB)
      (rng : Nat → List Nat) (cipher : Cipher) (msg : String),
      Cipher.find_by_uuid uuid conn = some cipher →
      cipher.user_uuid = headers.user.uuid →
      body.after_error = some msg →
      ∃ pmsg, (post_attachment uuid body (bp :: ps) headers conn rng).1 =
        .error (.panic pmsg)) := by
  constructor
  · intro uuid body headers conn rng cipher hfind hown
    unfold post_attachment
    rw [hfind]
    dsimp only
    rw [if_pos hown]
  · intro uuid body bp ps headers conn rng cipher msg hfind hown herr
    unfold post_attachment
    rw [hfind]
    dsimp only
    rw [if_pos hown]
    try dsimp only
    rcases hres : attachLoop cipher rng body.parts 0 conn with ⟨r, conn2⟩
    rcases attachLoop_never_badRequest cipher rng body.parts 0 conn with hok | ⟨m, hm⟩
    · rw [hres] at hok
      dsimp only at hok
      subst hok
      refine ⟨"Error processing multipart data", ?_⟩
      rw [herr]
    · rw [hres] at hm
      dsimp only at hm
      subst hm
      exact ⟨m, rfl⟩

/-- C9 witness: the two panic modes at a concrete owned cipher — an
empty content-type parameter list, and a malformed multipart stream. -/
theorem c9_multipart_panics_witness :
    (Cipher.find_by_uuid "c1" db6 = some plainCipher ∧
      plainCipher.user_uuid = headers0.user.uuid ∧
      post_attachment "c1" emptyBody [] headers0 db6 rng0 =
        (.error (.panic "No boundary provided"), db6)) ∧
    (malformedBody.after_error = some "malformed" ∧
      ∃ pmsg, (post_attachment "c1" malformedBody boundaryParams headers0 db6 rng0).1 =
        .error (.panic pmsg)) :=
  ⟨⟨rfl, rfl, c9_multipart_panics.1 "c1" emptyBody headers0 db6 rng0 plainCipher rfl rfl⟩,
   ⟨rfl, c9_multipart_panics.2 "c1" malformedBody ("boundary", "XX") [] headers0 db6 rng0
      plainCipher "malformed" rfl rfl rfl⟩⟩
